import Mathlib

/-!
Verification of the Hypixel Skyblock calculators' price/caching core.

Shallow embedding of the price-resolution and caching subsystem and of the
calculation engines of the repository, together with theorems settling the
frozen claims about them.

Conventions:
* JS numbers are modelled as `ℚ` (all the arithmetic the claims mention is
  exact-rational; no floating-point-specific behaviour is claimed).
* `Date.now()` timestamps are `ℕ` milliseconds.  JS computes `now - ts` on
  signed numbers; entries always carry timestamps `≤ now` in every reachable
  state, and for `ts > now` both the JS code (negative difference) and the
  `ℕ` truncated subtraction (zero) treat the entry as fresh, so `ℕ`
  subtraction is faithful.
* JS objects used as string-keyed maps are modelled as `String → Option _`
  functions or association lists.
* `try { … } catch { … }` is modelled with `Except`: the body returns
  `Except JsError _` and the wrapper maps every `.error` to the catch
  handler's result.
-/

/-- A JS runtime exception (the code only distinguishes "some error was
thrown", never the error's contents, on the paths the claims mention). -/
inductive JsError where
  | typeError
  | fetchError
  | parseError
deriving Repr, DecidableEq

/-- One entry of the price cache: `{ value, timestamp }` as built by
`CoflnetAuctionAPI.setCached`. -/
structure CacheEntry where
  value : ℚ
  timestamp : ℕ
deriving Repr, DecidableEq

/-- The two cache tiers of the `CoflnetAuctionAPI` variant with persistent
storage (`src/unnamed/part_001`): `this.cache` (a `Map`, in memory) and the
`localStorage` entries under `this.localStoragePrefix`.  Both tiers are
string-keyed maps of `CacheEntry`s. -/
structure CoflnetCache where
  mem : String → Option CacheEntry
  storage : String → Option CacheEntry

/-- The `this.cacheExpiry` of the persistent-cache `CoflnetAuctionAPI` variant:
10 minutes. -/
def coflnetCacheExpiry : ℕ := 600000

/-- The `localStorage` half of `CoflnetAuctionAPI.getCached`
(`src/unnamed/part_001` lines 522-542): on a stored entry within the expiry
window, restore it to the memory cache and return its value; on an expired
entry, remove it; otherwise miss. -/
def getCachedStorage (s : CoflnetCache) (key : String) (now : ℕ) :
    Option ℚ × CoflnetCache :=
  match s.storage key with
  | some e =>
      if now - e.timestamp ≤ coflnetCacheExpiry then
        (some e.value, { s with mem := fun k => if k = key then some e else s.mem k })
      else
        (none, { s with storage := fun k => if k = key then none else s.storage k })
  | none => (none, s)

/-- The `CoflnetAuctionAPI.getCached` (`src/unnamed/part_001` lines 511-543):
check the memory tier first; a fresh memory entry is returned as is, an
expired one is deleted and the persistent tier is consulted. -/
def getCached (s : CoflnetCache) (key : String) (now : ℕ) :
    Option ℚ × CoflnetCache :=
  match s.mem key with
  | some e =>
      if now - e.timestamp ≤ coflnetCacheExpiry then (some e.value, s)
      else
        getCachedStorage { s with mem := fun k => if k = key then none else s.mem k } key now
  | none => getCachedStorage s key now

/-- The `CoflnetAuctionAPI.setCached` (`src/unnamed/part_001` lines 551-567):
write-through — the same `{ value, timestamp }` object is stored in the
memory tier and in `localStorage` (the silent-failure path of a full
`localStorage` is not modelled; the claims quantify over successful
writes). -/
def setCached (s : CoflnetCache) (key : String) (value : ℚ) (now : ℕ) :
    CoflnetCache :=
  { mem := fun k => if k = key then some ⟨value, now⟩ else s.mem k,
    storage := fun k => if k = key then some ⟨value, now⟩ else s.storage k }

/-- An entry of the memory tier is fresh at `now` when its age is within the
expiry window. -/
def memFresh (s : CoflnetCache) (key : String) (now : ℕ) : Prop :=
  ∃ e, s.mem key = some e ∧ now - e.timestamp ≤ coflnetCacheExpiry

/-- An entry of the persistent tier is fresh at `now` when its age is within
the expiry window. -/
def storageFresh (s : CoflnetCache) (key : String) (now : ℕ) : Prop :=
  ∃ e, s.storage key = some e ∧ now - e.timestamp ≤ coflnetCacheExpiry

/-! ## Bazaar data model (`src/js/apis/hypixel-bazaar-api.js`)

The upstream bazaar endpoint returns, per item id, a product with
`buy_summary` and `sell_summary` arrays of `{ pricePerUnit, … }` entries.
Either array field may be absent (`product.buy_summary && …` guards). -/

/-- One entry of a `buy_summary`/`sell_summary` array. -/
structure SummaryEntry where
  pricePerUnit : ℚ
deriving Repr, DecidableEq

/-- One product of the bazaar payload. `none` models an absent field. -/
structure Product where
  buy_summary : Option (List SummaryEntry)
  sell_summary : Option (List SummaryEntry)
deriving Repr, DecidableEq

/-- The `hypixelData.products` object: item id → product. -/
def Products := List (String × Product)
deriving DecidableEq

/-- The body of `HypixelBazaarAPI.getItemPrice` after the bazaar payload has
been fetched (both textual variants, lines 210-242 and 638-662 of
`src/js/apis/hypixel-bazaar-api.js`, run this same logic): a missing product
gives 0; otherwise the first `buy_summary` entry wins, then the first
`sell_summary` entry, then 0. -/
def getItemPrice (products : Products) (itemId : String) : ℚ :=
  match List.lookup itemId products with
  | none => 0
  | some product =>
      match product.buy_summary with
      | some (e :: _) => e.pricePerUnit
      | _ =>
          match product.sell_summary with
          | some (e :: _) => e.pricePerUnit
          | _ => 0

/-! ## The proxy chain (`HypixelBazaarAPI.fetchBazaarData`)

Two textual variants exist in `src/js/apis/hypixel-bazaar-api.js`:

* lines 115-203 ("variant 1"): 3 proxies, attempts start at
  `this.currentProxyIndex` and wrap around; the index of a successful proxy
  is remembered; when every proxy fails the method throws
  `'All proxies failed'` — there is no direct request.
* lines 533-636 ("variant 2"): 4 proxies in a fixed order (no remembered
  index), a two-tier memory/localStorage cache, and one direct (unproxied)
  request after all proxies failed; only then does it throw.

A fetch attempt (one proxy, or the direct request) either yields a parsed,
`success`-flagged products payload or fails (non-ok HTTP status, parse
error, or `success: false` — the code collapses all of these into the same
catch). -/

/-- Outcome of one network attempt. -/
inductive ProxyResult where
  | ok (products : Products)
  | fail
deriving DecidableEq

/-- The network environment of one fetch: what each proxy (by index into the
proxy list) and the direct request would return. -/
structure BazaarEnv where
  proxy : ℕ → ProxyResult
  direct : ProxyResult

/-- Mutable fields of the variant-1 `HypixelBazaarAPI` touched by
`fetchBazaarData`: `this.cache.get('bazaarData')`, `this.lastFetch`,
`this.currentProxyIndex`. -/
structure BazaarState1 where
  cache : Option Products
  lastFetch : ℕ
  currentProxyIndex : ℕ
deriving DecidableEq

/-- The `this.cacheExpiry` of variant 1 in an HTTP context (60000; the file://
context uses 300000 — the claims do not depend on the length). -/
def bazaarCacheExpiry1 : ℕ := 60000

/-- Variant 1 has 3 proxies. -/
def proxyCount1 : ℕ := 3

/-- The proxy loop shared by both `fetchBazaarData` variants, as a function
of the ordered list of proxy indices to try (`for (…) { try { … } catch
{ … } }`): the first success wins and ends the loop.  Returns the
successful payload with its proxy index (if any) and the ordered list of
indices actually attempted. -/
def tryProxyList (env : BazaarEnv) : List ℕ → Option (Products × ℕ) × List ℕ
  | [] => (none, [])
  | idx :: rest =>
      match env.proxy idx with
      | .ok p => (some (p, idx), [idx])
      | .fail =>
          let r := tryProxyList env rest
          (r.1, idx :: r.2)

/-- The proxy indices variant 1 walks (lines 138-140): iteration `i` tries
proxy `(currentProxyIndex + i) % 3`. -/
def proxyOrder1 (start : ℕ) : List ℕ :=
  (List.range proxyCount1).map (fun i => (start + i) % proxyCount1)

/-- Result of one `fetchBazaarData` call: the returned payload (`none` when
the method throws), the resulting instance state, the ordered proxy indices
attempted, and how many direct (unproxied) requests were attempted. -/
structure FetchResult1 where
  outcome : Option Products
  state : BazaarState1
  attempts : List ℕ
  directAttempts : ℕ
deriving DecidableEq

/-- Variant-1 `HypixelBazaarAPI.fetchBazaarData` (lines 115-203): serve from
the memory cache when fresh, else walk the proxy list starting at
`currentProxyIndex`; on success cache the payload, stamp `lastFetch` and
remember the proxy; when every proxy fails, throw (`outcome = none`) without
touching the cache and without any direct request. -/
def fetchBazaarData1 (s : BazaarState1) (env : BazaarEnv) (now : ℕ) : FetchResult1 :=
  if s.cache.isSome ∧ now - s.lastFetch < bazaarCacheExpiry1 then
    ⟨s.cache, s, [], 0⟩
  else
    match tryProxyList env (proxyOrder1 s.currentProxyIndex) with
    | (some (p, idx), tr) => ⟨some p, ⟨some p, now, idx⟩, tr, 0⟩
    | (none, tr) => ⟨none, s, tr, 0⟩

/-- Mutable state of the variant-2 `HypixelBazaarAPI`: the memory tier
(`this.cache` / `this.lastFetch`) and the `localStorage` entry
(`hypixel_bazaar_cache`, a `{ data, timestamp }` object). -/
structure BazaarState2 where
  cache : Option Products
  lastFetch : ℕ
  storage : Option (Products × ℕ)
deriving DecidableEq

/-- The `this.cacheExpiry` of variant 2: 5 minutes. -/
def bazaarCacheExpiry2 : ℕ := 300000

/-- Variant 2 has 4 proxies. -/
def proxyCount2 : ℕ := 4

/-- Result of one variant-2 `fetchBazaarData` call (same reading as
`FetchResult1`, with the two-tier state). -/
structure FetchResult2 where
  outcome : Option Products
  state : BazaarState2
  attempts : List ℕ
  directAttempts : ℕ
deriving DecidableEq

/-- The network part of variant-2 `fetchBazaarData` (lines 550-635): the
fixed proxy chain, then exactly one direct request as the last resort; a
success writes the payload with the same timestamp to both tiers
(`this.cache.set` + `saveToLocalStorage`); total failure throws
(`outcome = none`) without writing anything. -/
def fetchBazaarNetwork2 (s : BazaarState2) (env : BazaarEnv) (now : ℕ) : FetchResult2 :=
  match tryProxyList env (List.range proxyCount2) with
  | (some (p, _), tr) => ⟨some p, ⟨some p, now, some (p, now)⟩, tr, 0⟩
  | (none, tr) =>
      match env.direct with
      | .ok p => ⟨some p, ⟨some p, now, some (p, now)⟩, tr, 1⟩
      | .fail => ⟨none, s, tr, 1⟩

/-- Variant-2 `HypixelBazaarAPI.fetchBazaarData` (lines 533-636): memory
tier first, then the `localStorage` tier (a fresh persistent hit is promoted
into memory, adopting the stored timestamp), then the network
(`fetchBazaarNetwork2`). -/
def fetchBazaarData2 (s : BazaarState2) (env : BazaarEnv) (now : ℕ) : FetchResult2 :=
  if s.cache.isSome ∧ now - s.lastFetch < bazaarCacheExpiry2 then
    ⟨s.cache, s, [], 0⟩
  else
    match s.storage with
    | some (p, ts) =>
        if now - ts < bazaarCacheExpiry2 then
          ⟨some p, ⟨some p, ts, s.storage⟩, [], 0⟩
        else
          fetchBazaarNetwork2 s env now
    | none => fetchBazaarNetwork2 s env now

/-! ## Auction price source (`CoflnetAuctionAPI`)

Two textual variants exist: `src/js/apis/coflnet-auction-api.js` (memory
cache only, 5-minute expiry) and `src/unnamed/part_001` (the two-tier cache
embedded above, 10-minute expiry).  Their `getLowestBIN`/`getAverageBIN`
bodies are line-for-line identical apart from logging, so they are embedded
once, parameterised by the cache operations. -/

/-- One `{ name, id }` entry of the static items catalog (`items.json`). -/
structure ItemEntry where
  name : String
  id : String
deriving Repr, DecidableEq

/-- JS `x || y` on numbers (`0` is falsy; `NaN` does not arise in the
modelled expressions). -/
def jsOrQ (x y : ℚ) : ℚ :=
  if x = 0 then y else x

/-- JS `Math.round` (half away from zero is actually half towards `+∞`):
`Math.round q = ⌊q + 1/2⌋`. -/
def jsRound (q : ℚ) : ℤ :=
  ⌊q + 1 / 2⌋

/-- JS `String.prototype.toLowerCase`, character-wise (the names involved
are ASCII, where `Char.toLower` agrees). -/
def jsToLower (s : String) : String :=
  ⟨s.data.map Char.toLower⟩

/-- The `CoflnetAuctionAPI.findItemTag` (both variants): first catalog entry
with a truthy `name` equal case-insensitively to the query wins, provided
its `id` is truthy; otherwise `null`/`undefined`. -/
def findItemTag (db : List ItemEntry) (itemName : String) : Option String :=
  match db.find? (fun it => it.name ≠ "" && jsToLower it.name == jsToLower itemName) with
  | some it => if it.id ≠ "" then some it.id else none
  | none => none

/-- One active-BIN listing as returned by the Coflnet endpoint; only the two
fields the code reads. -/
structure Listing where
  startingBid : ℚ
  highestBidAmount : ℚ
deriving Repr, DecidableEq

/-- The `data[0].startingBid || data[0].highestBidAmount || 0`. -/
def listingPrice (l : Listing) : ℚ :=
  jsOrQ l.startingBid (jsOrQ l.highestBidAmount 0)

/-- What the `auctions/tag/…/active/bin` request yields. -/
inductive BinResponse where
  /-- 200 with a JSON array of listings (possibly empty). -/
  | ok (listings : List Listing)
  /-- 200 with parseable JSON that is not an array (`!Array.isArray(data)`). -/
  | okNonArray
  /-- 404. -/
  | notFound
  /-- another non-ok status (the code throws `HTTP …`). -/
  | httpError
  /-- the `fetch` itself rejected. -/
  | netError
  /-- The `response.json()` threw. -/
  | parseError
deriving DecidableEq

/-- What the alternative `item/…/price` request (tried by `getLowestBIN` on
a 404) yields: an ok, parsed `{ median, mean }` object (absent fields read
as 0), a non-ok response, or a thrown error. -/
inductive AltResponse where
  | ok (median mean : ℚ)
  | notOk
  | err
deriving DecidableEq

/-- The upstream world of one auction-price call. -/
structure AuctionEnv where
  bin : BinResponse
  alt : AltResponse

/-- The cache operations a `CoflnetAuctionAPI` variant uses: `getCached`
(returning the hit and the possibly-cleaned/promoted cache) and
`setCached`. -/
structure CacheIface (σ : Type) where
  getC : σ → String → ℕ → Option ℚ × σ
  setC : σ → String → ℚ → ℕ → σ

/-- The `this.cacheExpiry` of the memory-only `CoflnetAuctionAPI` variant:
5 minutes. -/
def coflnetCacheExpiryMem : ℕ := 300000

/-- The memory tier alone, for the `src/js/apis/coflnet-auction-api.js`
variant. -/
def MemCache := String → Option CacheEntry

/-- The `CoflnetAuctionAPI.getCached` of the memory-only variant (lines
276-287): an entry older than the expiry is deleted and reported as a
miss. -/
def memGetCached (m : MemCache) (key : String) (now : ℕ) : Option ℚ × MemCache :=
  match m key with
  | none => (none, m)
  | some e =>
      if coflnetCacheExpiryMem < now - e.timestamp then
        (none, fun k => if k = key then none else m k)
      else
        (some e.value, m)

/-- The `CoflnetAuctionAPI.setCached` of the memory-only variant (lines
295-300). -/
def memSetCached (m : MemCache) (key : String) (value : ℚ) (now : ℕ) : MemCache :=
  fun k => if k = key then some ⟨value, now⟩ else m k

/-- The memory-only cache interface. -/
def memCacheIface : CacheIface MemCache :=
  ⟨memGetCached, memSetCached⟩

/-- The two-tier cache interface of the `src/unnamed/part_001` variant. -/
def twoTierCacheIface : CacheIface CoflnetCache :=
  ⟨getCached, setCached⟩

/-- The item tag used by `getLowestBIN`/`getAverageBIN`:
`itemName.includes('_') ? itemName : this.findItemTag(itemName)`.  With the
items database still `null` (`db = none`) and a name that forces the lookup,
`this.itemsDatabase.find` throws a `TypeError` — inside the `try`. -/
def resolveItemTag (db : Option (List ItemEntry)) (itemName : String) :
    Except JsError (Option String) :=
  if itemName.data.contains '_' then .ok (some itemName)
  else
    match db with
    | none => .error .typeError
    | some d => .ok (findItemTag d itemName)

/-- The cache key `` `bin_${itemTag}` `` — a `null` tag interpolates as the string
`"null"` (the sibling variant's `undefined` interpolates as `"undefined"`;
nothing below depends on the spelling). -/
def tagText (tag : Option String) : String :=
  match tag with
  | some t => t
  | none => "null"

/-- The `try`-body of `CoflnetAuctionAPI.getLowestBIN`
(`src/unnamed/part_001` lines 382-432, textually identical logic at
`src/js/apis/coflnet-auction-api.js` lines 117-182), generic in the cache:
cache first; then the active-BIN request; a 404 falls back to the
alternative price endpoint (caching its `median || mean || 0` on success,
caching `0` when it responds non-ok); an empty or non-array payload caches
`0`; any thrown error propagates to the catch.  The returned `Bool` records
whether an upstream request was issued.  (The `rateLimit()` delay only
spaces requests in time and is not modelled.) -/
def getLowestBINRun {σ : Type} (ci : CacheIface σ) (db : Option (List ItemEntry))
    (env : AuctionEnv) (s : σ) (itemName : String) (now : ℕ) :
    Except JsError ℚ × σ × Bool :=
  match resolveItemTag db itemName with
  | .error e => (.error e, s, false)
  | .ok tag =>
      let cacheKey := "bin_" ++ tagText tag
      match ci.getC s cacheKey now with
      | (some v, s1) => (.ok v, s1, false)
      | (none, s1) =>
          match env.bin with
          | .ok [] => (.ok 0, ci.setC s1 cacheKey 0 now, true)
          | .ok (l :: _) =>
              let price := listingPrice l
              (.ok price, ci.setC s1 cacheKey price now, true)
          | .okNonArray => (.ok 0, ci.setC s1 cacheKey 0 now, true)
          | .notFound =>
              match env.alt with
              | .ok median mean =>
                  let price := jsOrQ median (jsOrQ mean 0)
                  (.ok price, ci.setC s1 cacheKey price now, true)
              | .notOk => (.ok 0, ci.setC s1 cacheKey 0 now, true)
              | .err => (.error .fetchError, s1, true)
          | .httpError => (.error .fetchError, s1, true)
          | .netError => (.error .fetchError, s1, true)
          | .parseError => (.error .parseError, s1, true)

/-- The `CoflnetAuctionAPI.getLowestBIN`: the whole body sits in
`try { … } catch { return 0 }`. -/
def getLowestBINWith {σ : Type} (ci : CacheIface σ) (db : Option (List ItemEntry))
    (env : AuctionEnv) (s : σ) (itemName : String) (now : ℕ) : ℚ × σ × Bool :=
  match getLowestBINRun ci db env s itemName now with
  | (.ok p, s', f) => (p, s', f)
  | (.error _, s', f) => (0, s', f)

/-- The `try`-body of `CoflnetAuctionAPI.getAverageBIN`
(`src/unnamed/part_001` lines 434-482; identical logic at
`src/js/apis/coflnet-auction-api.js` lines 189-246): a 404 caches `0`
directly (no alternative endpoint); valid prices are the positive
`startingBid || highestBidAmount || 0` values; their rounded arithmetic
mean is cached. -/
def getAverageBINRun {σ : Type} (ci : CacheIface σ) (db : Option (List ItemEntry))
    (env : AuctionEnv) (s : σ) (itemName : String) (now : ℕ) :
    Except JsError ℚ × σ × Bool :=
  match resolveItemTag db itemName with
  | .error e => (.error e, s, false)
  | .ok tag =>
      let cacheKey := "avg_bin_" ++ tagText tag
      match ci.getC s cacheKey now with
      | (some v, s1) => (.ok v, s1, false)
      | (none, s1) =>
          match env.bin with
          | .ok listings =>
              if listings.isEmpty then
                (.ok 0, ci.setC s1 cacheKey 0 now, true)
              else
                let validPrices := (listings.map listingPrice).filter (fun p => 0 < p)
                if validPrices.isEmpty then
                  (.ok 0, ci.setC s1 cacheKey 0 now, true)
                else
                  let avg := validPrices.sum / (validPrices.length : ℚ)
                  let rounded : ℚ := (jsRound avg : ℚ)
                  (.ok rounded, ci.setC s1 cacheKey rounded now, true)
          | .okNonArray => (.ok 0, ci.setC s1 cacheKey 0 now, true)
          | .notFound => (.ok 0, ci.setC s1 cacheKey 0 now, true)
          | .httpError => (.error .fetchError, s1, true)
          | .netError => (.error .fetchError, s1, true)
          | .parseError => (.error .parseError, s1, true)

/-- The `CoflnetAuctionAPI.getAverageBIN`: `try { … } catch { return 0 }`. -/
def getAverageBINWith {σ : Type} (ci : CacheIface σ) (db : Option (List ItemEntry))
    (env : AuctionEnv) (s : σ) (itemName : String) (now : ℕ) : ℚ × σ × Bool :=
  match getAverageBINRun ci db env s itemName now with
  | (.ok p, s', f) => (p, s', f)
  | (.error _, s', f) => (0, s', f)

/-- The `getLowestBIN` of the two-tier (`src/unnamed/part_001`) variant. -/
def getLowestBIN (db : Option (List ItemEntry)) (env : AuctionEnv)
    (s : CoflnetCache) (itemName : String) (now : ℕ) : ℚ × CoflnetCache × Bool :=
  getLowestBINWith twoTierCacheIface db env s itemName now

/-- The `getLowestBIN` of the memory-only (`coflnet-auction-api.js`) variant. -/
def getLowestBINMem (db : Option (List ItemEntry)) (env : AuctionEnv)
    (s : MemCache) (itemName : String) (now : ℕ) : ℚ × MemCache × Bool :=
  getLowestBINWith memCacheIface db env s itemName now

/-- The `getAverageBIN` of the two-tier (`src/unnamed/part_001`) variant. -/
def getAverageBIN (db : Option (List ItemEntry)) (env : AuctionEnv)
    (s : CoflnetCache) (itemName : String) (now : ℕ) : ℚ × CoflnetCache × Bool :=
  getAverageBINWith twoTierCacheIface db env s itemName now

/-- The `getAverageBIN` of the memory-only (`coflnet-auction-api.js`) variant. -/
def getAverageBINMem (db : Option (List ItemEntry)) (env : AuctionEnv)
    (s : MemCache) (itemName : String) (now : ℕ) : ℚ × MemCache × Bool :=
  getAverageBINWith memCacheIface db env s itemName now

/-! ## Catalog resolution (`HypixelBazaarAPI.findItemId` / `nameToApiKey`)

The variant at `src/js/apis/hypixel-bazaar-api.js` lines 726-750: exact
case-insensitive match, then substring match (catalog name contains the
query), then the deterministic synthesis `nameToApiKey` (lines 664-669 /
365-370): `toUpperCase`, each whitespace run (`/\s+/g`) replaced by one
underscore, parentheses (`/[()]/g`) stripped. -/

/-- JS `String.prototype.toUpperCase`, character-wise (the names involved
are ASCII, where `Char.toUpper` agrees). -/
def jsToUpper (s : String) : String :=
  ⟨s.data.map Char.toUpper⟩

/-- The `replace(/\s+/g, '_')` on a character list: each maximal run of
whitespace becomes a single `'_'`.  `prevWs` records whether the previous
character was inside a whitespace run. -/
def replaceWsAux : Bool → List Char → List Char
  | _, [] => []
  | prevWs, c :: cs =>
      if c.isWhitespace then
        (if prevWs then [] else ['_']) ++ replaceWsAux true cs
      else
        c :: replaceWsAux false cs

/-- The `replace(/[()]/g, '')`. -/
def stripParens (l : List Char) : List Char :=
  l.filter (fun c => !(c == '(' || c == ')'))

/-- The `HypixelBazaarAPI.nameToApiKey`. -/
def nameToApiKey (itemName : String) : String :=
  ⟨stripParens (replaceWsAux false (jsToUpper itemName).data)⟩

/-- The exact-match predicate of `findItemId`:
`item.name && item.name.toLowerCase() === itemName.toLowerCase()`. -/
def exactNameMatch (itemName : String) (it : ItemEntry) : Bool :=
  it.name ≠ "" && jsToLower it.name == jsToLower itemName

/-- Does the character list start with `needle`? (helper for JS
`String.prototype.includes`). -/
def startsWithList : List Char → List Char → Bool
  | _, [] => true
  | [], _ :: _ => false
  | c :: cs, d :: ds => c == d && startsWithList cs ds

/-- JS `hay.includes(needle)` on character lists: some suffix of `hay`
starts with `needle`. -/
def containsList : List Char → List Char → Bool
  | [], needle => needle.isEmpty
  | c :: t, needle => startsWithList (c :: t) needle || containsList t needle

/-- The partial-match predicate of `findItemId`:
`item.name && item.name.toLowerCase().includes(itemName.toLowerCase())`. -/
def looseNameMatch (itemName : String) (it : ItemEntry) : Bool :=
  it.name ≠ "" && containsList (jsToLower it.name).data (jsToLower itemName).data

/-- The partial-match-then-fallback tail of `findItemId` (lines 740-749). -/
def findItemIdTail (db : List ItemEntry) (itemName : String) : String :=
  match db.find? (looseNameMatch itemName) with
  | some it => if it.id ≠ "" then it.id else nameToApiKey itemName
  | none => nameToApiKey itemName

/-- The `HypixelBazaarAPI.findItemId` (lines 726-750).  A `null` or empty items
database falls straight back to `nameToApiKey`. -/
def findItemId (db : List ItemEntry) (itemName : String) : String :=
  if db.isEmpty then nameToApiKey itemName
  else
    match db.find? (exactNameMatch itemName) with
    | some it => if it.id ≠ "" then it.id else findItemIdTail db itemName
    | none => findItemIdTail db itemName

/-! ## Forge calculator (`src/js/forge-calculator.js`)

`calculateRecipeProfit` exists in two textual variants: lines 346-393
("v1", duration from `time.hours + time.minutes / 60` only) and lines
831-873 ("v2", duration from `(days*24) + hours + minutes/60 + seconds/3600`
with `|| 0` defaults).  Time fields are modelled as rationals with absent
fields read as 0 (exactly what `|| 0` yields; v1's recipes declare hours and
minutes). -/

/-- The `recipe.time`. -/
structure ForgeTime where
  days : ℚ
  hours : ℚ
  minutes : ℚ
  seconds : ℚ
deriving Repr, DecidableEq

/-- One `recipe.inputs[i]`: `coinCost` is only read when
`source === 'coins'` (absent modelled as 0, as `|| 0` reads it). -/
structure ForgeInput where
  name : String
  quantity : ℚ
  source : String
  coinCost : ℚ
deriving Repr, DecidableEq

/-- A forge recipe (the fields `calculateRecipeProfit` reads). -/
structure ForgeRecipe where
  name : String
  inputs : List ForgeInput
  time : ForgeTime
deriving Repr, DecidableEq

/-- The unit price charged for one input:
`input.source === 'coins' ? (input.coinCost || 0) : (priceCache.get(input.name) || 0)`. -/
def forgeInputUnitPrice (priceCache : String → Option ℚ) (input : ForgeInput) : ℚ :=
  if input.source = "coins" then input.coinCost
  else (priceCache input.name).getD 0

/-- The result object of `calculateRecipeProfit` (the `inputDetails` array
only repeats the inputs with their resolved prices and is omitted). -/
structure ForgeCalcResult where
  inputCost : ℚ
  outputValue : ℚ
  profit : ℚ
  profitPerHour : ℚ
  totalTime : ℚ
deriving Repr, DecidableEq

/-- The input-cost accumulation (`recipe.inputs.forEach(…)`, shared by both
variants): `inputCost += price * input.quantity`. -/
def forgeInputCost (priceCache : String → Option ℚ) (inputs : List ForgeInput) : ℚ :=
  inputs.foldl (fun acc input => acc + forgeInputUnitPrice priceCache input * input.quantity) 0

/-- Variant-2 `ForgeCalculator.calculateRecipeProfit` (lines 831-873). -/
def calculateRecipeProfit (priceCache : String → Option ℚ) (recipe : ForgeRecipe) :
    ForgeCalcResult :=
  let inputCost := forgeInputCost priceCache recipe.inputs
  let outputPrice := (priceCache recipe.name).getD 0
  let profit := outputPrice - inputCost
  let totalHours :=
    recipe.time.days * 24 + recipe.time.hours + recipe.time.minutes / 60 +
      recipe.time.seconds / 3600
  let profitPerHour := if 0 < totalHours then profit / totalHours else 0
  ⟨inputCost, outputPrice, profit, profitPerHour, totalHours⟩

/-- Variant-1 `ForgeCalculator.calculateRecipeProfit` (lines 346-393): the
duration reads only `recipe.time.hours + recipe.time.minutes / 60`. -/
def calculateRecipeProfitV1 (priceCache : String → Option ℚ) (recipe : ForgeRecipe) :
    ForgeCalcResult :=
  let inputCost := forgeInputCost priceCache recipe.inputs
  let outputPrice := (priceCache recipe.name).getD 0
  let profit := outputPrice - inputCost
  let totalHours := recipe.time.hours + recipe.time.minutes / 60
  let profitPerHour := if 0 < totalHours then profit / totalHours else 0
  ⟨inputCost, outputPrice, profit, profitPerHour, totalHours⟩

/-! ## Corpse ROI calculator (`src/js/corpse-roi-calculator.js`) -/

/-- One loot-table row as loaded from `corpse-loot-tables.json`
(`{ name, quantity, weight, source }`), plus the four computed fields that
`sortTable` copies onto its working rows (`none` on freshly loaded rows —
the loaded JSON has no such fields). -/
structure DropEntry where
  name : String
  quantity : ℚ
  weight : ℚ
  source : String
  price : Option ℚ
  total : Option ℚ
  weightPercent : Option ℚ
  weighted : Option ℚ
deriving Repr, DecidableEq

/-- The `this.corpseMaxWeights` (constructor, lines 21-26). -/
def corpseMaxWeights (t : String) : Option ℚ :=
  if t = "vanguard" then some 2399
  else if t = "tungsten" then some 12195
  else if t = "umber" then some 12195
  else if t = "lapis" then some 24890
  else none

/-- The `this.corpseRolls` (constructor, lines 27-32). -/
def corpseRolls (t : String) : Option ℚ :=
  if t = "vanguard" then some (67 / 10)
  else if t = "tungsten" then some (57 / 10)
  else if t = "umber" then some (57 / 10)
  else if t = "lapis" then some (47 / 10)
  else none

/-- The quantities `CorpseROICalculator.calculateROI` derives (lines
354-418); the rest of that method only writes the DOM. -/
structure ROIResult where
  expectedValuePerRoll : ℚ
  expectedValuePerCorpse : ℚ
  profit : ℚ
  roiPercentage : ℚ
deriving Repr, DecidableEq

/-- The arithmetic core of `calculateROI`, over a drop table, the item-price
map (`this.itemPrices[item.name] || 0`), the corpse type's fixed
`totalWeight` and `rollsPerCorpse`, and the key price. -/
def calculateROICore (itemPrices : String → Option ℚ) (dropItems : List DropEntry)
    (totalWeight rollsPerCorpse keyPrice : ℚ) : ROIResult :=
  let expectedValuePerRoll :=
    dropItems.foldl
      (fun acc item =>
        acc + (itemPrices item.name).getD 0 * item.quantity * (item.weight / totalWeight))
      0
  let expectedValuePerCorpse := expectedValuePerRoll * rollsPerCorpse
  let profit := expectedValuePerCorpse - keyPrice
  let roiPercentage := if 0 < keyPrice then profit / keyPrice * 100 else 0
  ⟨expectedValuePerRoll, expectedValuePerCorpse, profit, roiPercentage⟩

/-! ## Corpse calculator state and table operations (for the mutation claim)

The instance fields of `CorpseROICalculator` that the table operations
read or write.  `calculateROI` (lines 354-418) and `updateDropTable` write
only the DOM; `updatePrices` (lines 241-320) writes `this.itemPrices`;
`sortTable` (lines 420-507) writes `this.dropTables[this.currentCorpse]`,
`this.sortColumn` and `this.sortDirection`. -/

structure CorpseState where
  dropTables : String → Option (List DropEntry)
  itemPrices : String → Option ℚ
  keyPrice : ℚ
  currentCorpse : Option String
  sortColumn : Option String
  sortAsc : Bool

/-- The `CorpseROICalculator.calculateROI`: pure read of the state — the method
renders its numbers into the DOM and touches no instance field.  An unset
corpse, a missing table or an empty table produce no result (the early
`return`s). -/
def calculateROIOp (s : CorpseState) : Option ROIResult × CorpseState :=
  match s.currentCorpse with
  | none => (none, s)
  | some corpse =>
      match s.dropTables corpse with
      | none => (none, s)
      | some items =>
          if items.isEmpty then (none, s)
          else
            (some (calculateROICore s.itemPrices items
                ((corpseMaxWeights corpse).getD 0) ((corpseRolls corpse).getD 0)
                s.keyPrice),
              s)

/-- The `CorpseROICalculator.updatePrices`, state part: for each (unique) item
name of the current drop table, `this.itemPrices[itemName] = price` where
`price` is whatever the per-item fetch chain resolved (`fetched`; every
per-item failure is caught and stores 0).  `this.dropTables` is not
touched. -/
def updatePricesOp (s : CorpseState) (fetched : String → ℚ) : CorpseState :=
  match s.currentCorpse with
  | none => s
  | some corpse =>
      match s.dropTables corpse with
      | none => s
      | some items =>
          { s with
            itemPrices := fun n =>
              if (items.map DropEntry.name).contains n then some (fetched n)
              else s.itemPrices n }

/-- The row objects `sortTable` builds (lines 435-450):
`{ ...item, price, total, weightPercent, weighted }`. -/
def augmentEntry (itemPrices : String → Option ℚ) (totalWeight rolls : ℚ)
    (item : DropEntry) : DropEntry :=
  let price := (itemPrices item.name).getD 0
  let totalValue := price * item.quantity
  { item with
    price := some price,
    total := some totalValue,
    weightPercent := some (item.weight / totalWeight * 100),
    weighted := some (totalValue * (item.weight / totalWeight) * rolls) }

/-- A sort key of the comparator of `sortTable` (strings for the `item`
column, numbers otherwise). -/
inductive SortKey where
  | str (s : String)
  | num (q : ℚ)
deriving DecidableEq

/-- The `aVal`/`bVal` extraction of the comparator (lines 456-487); `none`
for an unknown column (where the comparator returns 0). -/
def entrySortKey (column : String) (e : DropEntry) : Option SortKey :=
  if column = "item" then some (.str (jsToLower e.name))
  else if column = "quantity" then some (.num e.quantity)
  else if column = "weight" then some (.num e.weight)
  else if column = "weightPercent" then some (.num (e.weightPercent.getD 0))
  else if column = "price" then some (.num (e.price.getD 0))
  else if column = "total" then some (.num (e.total.getD 0))
  else if column = "weighted" then some (.num (e.weighted.getD 0))
  else none

/-- JS `<` on two sort keys of the same column (same constructor by
construction). -/
def sortKeyLtb : SortKey → SortKey → Bool
  | .str a, .str b => a < b
  | .num a, .num b => a < b
  | _, _ => false

/-- Relation "`a` may precede `b`": the comparator of lines 453-492 returns `≤ 0`.
JS `Array.prototype.sort` is a stable comparison sort; it is modelled as
`List.insertionSort` over this relation (the claims about it depend only on
its being a permutation). -/
def rowBefore (column : String) (asc : Bool) (a b : DropEntry) : Bool :=
  match entrySortKey column a, entrySortKey column b with
  | some ka, some kb => if asc then ¬ sortKeyLtb kb ka else ¬ sortKeyLtb ka kb
  | _, _ => true

/-- The `CorpseROICalculator.sortTable` (lines 420-507), state part: toggle the
direction when re-sorting the same column, build the augmented rows from the
current table, sort them, and assign the result back to
`this.dropTables[this.currentCorpse]`. -/
def sortTableOp (s : CorpseState) (column : String) : CorpseState :=
  match s.currentCorpse with
  | none => s
  | some corpse =>
      match s.dropTables corpse with
      | none => s
      | some items =>
          let asc := if s.sortColumn = some column then !s.sortAsc else true
          let totalWeight := (corpseMaxWeights corpse).getD 0
          let rolls := (corpseRolls corpse).getD 0
          let sortable := items.map (augmentEntry s.itemPrices totalWeight rolls)
          let sorted :=
            List.insertionSort (fun a b => rowBefore column asc a b = true) sortable
          { s with
            dropTables := fun c => if c = corpse then some sorted else s.dropTables c,
            sortColumn := some column,
            sortAsc := asc }

/-- The loaded (name, quantity, weight, source) content of a row — the
read-only domain data of the claim about static tables. -/
def coreFields (e : DropEntry) : String × ℚ × ℚ × String :=
  (e.name, e.quantity, e.weight, e.source)

/-! ## Crystal/gemstone conversion engines

Standalone calculator: `CrystalCalculator.calculateProfits`
(`src/unnamed/part_002` lines 184-227), fed by `updateGemstonePrice` which
sets `flawedTotal = flawedPrice * 32000` and `fineTotal = finePrice * 400`.
Shared utility: the `'crystal'` case of `GemstonePricing.getGemstonePrice`
(`src/unnamed/part_001` lines 175-226). -/

/-- The `this.flawedQuantity`: 32k flawed gemstones per perfect. -/
def flawedQuantity : ℚ := 32000

/-- The `this.fineQuantity`: 400 fine gemstones per perfect. -/
def fineQuantity : ℚ := 400

/-- Which conversion method `calculateProfits` labels as best
(`data.bestMethod` is a display string `'32k Flawed (…)'` / `'400 Fine (…)'`
/ `'No Data'`; only the choice matters here). -/
inductive BestMethod where
  | flawed
  | fine
  | noData
deriving Repr, DecidableEq

/-- The fields of `this.gemstoneData[g]` that `calculateProfits` writes. -/
structure CrystalProfitResult where
  bestMethod : BestMethod
  bestCost : ℚ
  profit : ℚ
deriving Repr, DecidableEq

/-- The per-gemstone body of `CrystalCalculator.calculateProfits` (lines
187-224): with no positive perfect price everything is zeroed (`'No Data'`);
otherwise the cheaper of the two positive conversion costs wins, a tie
(`flawedCost <= fineCost`) going to the flawed method, and
`profit = bestCost > 0 ? perfectPrice - bestCost : 0`. -/
def calculateProfitsEntry (flawedPrice finePrice perfectPrice : ℚ) :
    CrystalProfitResult :=
  if 0 < perfectPrice then
    let flawedCost := flawedPrice * flawedQuantity
    let fineCost := finePrice * fineQuantity
    let best : BestMethod × ℚ :=
      if 0 < flawedCost ∧ 0 < fineCost then
        if flawedCost ≤ fineCost then (.flawed, flawedCost) else (.fine, fineCost)
      else if 0 < flawedCost then (.flawed, flawedCost)
      else if 0 < fineCost then (.fine, fineCost)
      else (.noData, 0)
    ⟨best.1, best.2, if 0 < best.2 then perfectPrice - best.2 else 0⟩
  else ⟨.noData, 0, 0⟩

/-- The `this.normalPerFlawed`: 1 flawed = 80 normal gemstones. -/
def normalPerFlawed : ℚ := 80

/-- The `this.normalPerFine`: 1 fine = 6400 normal gemstones. -/
def normalPerFine : ℚ := 6400

/-- The `this.normalPerPerfect`: 1 perfect = 2,560,000 normal gemstones. -/
def normalPerPerfect : ℚ := 2560000

/-- The `flawedNeededForPerfect = normalPerPerfect / normalPerFlawed` (32,000). -/
def flawedNeededForPerfect : ℚ := normalPerPerfect / normalPerFlawed

/-- The `fineNeededForPerfect = normalPerPerfect / normalPerFine` (400). -/
def fineNeededForPerfect : ℚ := normalPerPerfect / normalPerFine

/-- The `'crystal'` case of `GemstonePricing.getGemstonePrice` (lines
178-225), as a function of the three fetched prices: zero without a
positive perfect price; otherwise the minimum positive conversion cost, and
the crystal value `perfectPrice - bestCost` clamped at 0
(`Math.max(0, crystalValue)`). -/
def getGemstonePriceCrystal (flawedPrice finePrice perfectPrice : ℚ) : ℚ :=
  if perfectPrice ≤ 0 then 0
  else
    let flawedTotalCost := flawedPrice * flawedNeededForPerfect
    let fineTotalCost := finePrice * fineNeededForPerfect
    let bestCost :=
      if 0 < flawedTotalCost ∧ 0 < fineTotalCost then min flawedTotalCost fineTotalCost
      else if 0 < flawedTotalCost then flawedTotalCost
      else if 0 < fineTotalCost then fineTotalCost
      else 0
    let crystalValue := if 0 < bestCost then perfectPrice - bestCost else 0
    max 0 crystalValue

/-! ## Freshness predicates for the variant-2 bazaar tiers -/

/-- The variant-2 memory tier would satisfy the cache check at `now`. -/
def bazaarMemFresh2 (s : BazaarState2) (now : ℕ) : Prop :=
  s.cache.isSome ∧ now - s.lastFetch < bazaarCacheExpiry2

/-- The variant-2 `localStorage` tier holds a payload within the expiry
window at `now`. -/
def bazaarStorageFresh2 (s : BazaarState2) (now : ℕ) : Prop :=
  ∃ p ts, s.storage = some (p, ts) ∧ now - ts < bazaarCacheExpiry2

/-! ## Concrete instances used by witnesses and counterexamples -/

/-- A two-tier cache with an empty memory tier and one persistent entry
(`bin_X` ↦ value 5 at time 0). -/
def cacheWithStorageEntry : CoflnetCache :=
  ⟨fun _ => none, fun k => if k = "bin_X" then some ⟨5, 0⟩ else none⟩

/-- The empty two-tier cache. -/
def emptyCoflnetCache : CoflnetCache :=
  ⟨fun _ => none, fun _ => none⟩

/-- An upstream world where the active-BIN query 404s and the alternative
price endpoint answers with median 500. -/
def envNotFoundAltOk : AuctionEnv :=
  ⟨.notFound, .ok 500 0⟩

/-- An upstream world where the active-BIN fetch itself throws. -/
def envNetError : AuctionEnv :=
  ⟨.netError, .err⟩

/-- A network where every proxy and the direct request fail. -/
def envAllFail : BazaarEnv :=
  ⟨fun _ => .fail, .fail⟩

/-- A network where proxy 0 fails, proxy 1 answers (an empty product map is
enough), the remaining proxies and the direct request fail. -/
def envSecondProxyOk : BazaarEnv :=
  ⟨fun i => if i = 1 then .ok [] else .fail, .fail⟩

/-- A fresh variant-1 bazaar instance. -/
def bazaarInit1 : BazaarState1 :=
  ⟨none, 0, 0⟩

/-- A fresh variant-2 bazaar instance. -/
def bazaarInit2 : BazaarState2 :=
  ⟨none, 0, none⟩

/-- A one-entry catalog without a match for the counterexample name. -/
def smallCatalog : List ItemEntry :=
  [⟨"Diamond", "DIAMOND"⟩]

/-- A recipe whose forge time is exactly one day (declared via the `days`
field). -/
def oneDayRecipe : ForgeRecipe :=
  ⟨"Forged Item", [], ⟨1, 0, 0, 0⟩⟩

/-- The spec's example recipe: inputs 2 × "A" and 1 × "B", duration
1 h 30 min. -/
def exampleRecipe : ForgeRecipe :=
  ⟨"Out", [⟨"A", 2, "bazaar", 0⟩, ⟨"B", 1, "bazaar", 0⟩], ⟨0, 1, 30, 0⟩⟩

/-- Prices for the examples: "A" ↦ 100, "B" ↦ 50, "Out" ↦ 500,
"Forged Item" ↦ 24, "Item" ↦ 1000. -/
def examplePrices : String → Option ℚ :=
  fun n =>
    if n = "A" then some 100
    else if n = "B" then some 50
    else if n = "Out" then some 500
    else if n = "Forged Item" then some 24
    else if n = "Item" then some 1000
    else none

/-- Two freshly loaded drop rows with distinct names and weights. -/
def loadedRows : List DropEntry :=
  [⟨"Heavy", 1, 9, "bazaar", none, none, none, none⟩,
   ⟨"Light", 1, 2, "bazaar", none, none, none, none⟩]

/-- A corpse-calculator state that has just loaded `loadedRows` for the
umber corpse. -/
def corpseStateLoaded : CorpseState :=
  ⟨fun c => if c = "umber" then some loadedRows else none,
   fun _ => none, 0, some "umber", none, true⟩

/-! # Theorems

Shared helper lemmas first, then one theorem per claim (with its witness or
counterexample where required). -/

theorem getCachedStorage_fst_eq_none_iff (s : CoflnetCache) (key : String) (now : ℕ) :
    (getCachedStorage s key now).1 = none ↔ ¬ storageFresh s key now := by
  unfold getCachedStorage storageFresh
  cases h : s.storage key with
  | none => simp [h]
  | some e =>
      by_cases hfresh : now - e.timestamp ≤ coflnetCacheExpiry
      · simp only [hfresh, if_true]
        constructor
        · intro hc
          cases hc
        · intro hc
          exact absurd ⟨e, rfl, hfresh⟩ hc
      · simp only [hfresh, if_false]
        constructor
        · rintro - ⟨e', he', hfr'⟩
          cases he'
          exact hfresh hfr'
        · intro _
          trivial

theorem getCached_fst_eq_none_iff (s : CoflnetCache) (key : String) (now : ℕ) :
    (getCached s key now).1 = none ↔ ¬ memFresh s key now ∧ ¬ storageFresh s key now := by
  unfold getCached
  cases h : s.mem key with
  | none =>
      rw [getCachedStorage_fst_eq_none_iff]
      simp [memFresh, h]
  | some e =>
      by_cases hfresh : now - e.timestamp ≤ coflnetCacheExpiry
      · simp only [hfresh, if_true]
        constructor
        · intro hc
          cases hc
        · rintro ⟨hmem, -⟩
          exact absurd ⟨e, h, hfresh⟩ hmem
      · simp only [hfresh, if_false]
        rw [getCachedStorage_fst_eq_none_iff]
        constructor
        · intro hst
          refine ⟨?_, ?_⟩
          · rintro ⟨e', he', hfr'⟩
            rw [h] at he'
            cases he'
            exact hfresh hfr'
          · simpa [storageFresh] using hst
        · rintro ⟨-, hst⟩
          simpa [storageFresh] using hst

theorem fetchBazaarData2_of_memFresh (s : BazaarState2) (env : BazaarEnv) (now : ℕ)
    (h : bazaarMemFresh2 s now) :
    fetchBazaarData2 s env now = ⟨s.cache, s, [], 0⟩ := by
  unfold fetchBazaarData2
  rw [if_pos (show s.cache.isSome = true ∧ now - s.lastFetch < bazaarCacheExpiry2 from h)]

theorem fetchBazaarData2_of_storageFresh (s : BazaarState2) (env : BazaarEnv) (now : ℕ)
    (hmem : ¬ bazaarMemFresh2 s now) (p : Products) (ts : ℕ)
    (hst : s.storage = some (p, ts)) (hfr : now - ts < bazaarCacheExpiry2) :
    fetchBazaarData2 s env now = ⟨some p, ⟨some p, ts, s.storage⟩, [], 0⟩ := by
  unfold fetchBazaarData2
  rw [if_neg (show ¬ (s.cache.isSome = true ∧ now - s.lastFetch < bazaarCacheExpiry2) from hmem),
    hst]
  dsimp only
  rw [if_pos hfr]

theorem fetchBazaarData2_network (s : BazaarState2) (env : BazaarEnv) (now : ℕ)
    (hmem : ¬ bazaarMemFresh2 s now) (hst : ¬ bazaarStorageFresh2 s now) :
    fetchBazaarData2 s env now = fetchBazaarNetwork2 s env now := by
  unfold fetchBazaarData2
  rw [if_neg (show ¬ (s.cache.isSome = true ∧ now - s.lastFetch < bazaarCacheExpiry2) from hmem)]
  cases h : s.storage with
  | none => rfl
  | some pts =>
      obtain ⟨p, ts⟩ := pts
      dsimp only
      rw [if_neg]
      intro hfr
      exact hst ⟨p, ts, h, hfr⟩

/-- C1: for every cache key, a price-cache lookup checks the in-memory tier
first (a fresh memory entry is answered from memory with no state change);
on a memory miss (or expired memory entry) a fresh persistent entry is
promoted back into memory and returned; the lookup reports a miss — and
hence the caller triggers a fresh network fetch — exactly when both tiers
miss or are older than the expiry window; and after every successful cache
write both tiers hold the same value and timestamp (write-through).  Stated
for `CoflnetAuctionAPI.getCached`/`setCached` (`src/unnamed/part_001`) and,
in the last four conjuncts, for the two-tier variant of
`HypixelBazaarAPI.fetchBazaarData` with `saveToLocalStorage` /
`getFromLocalStorage`. -/
theorem c1_two_tier_cache_protocol (s : CoflnetCache) (key : String) (v : ℚ)
    (s2 : BazaarState2) (env : BazaarEnv) (now : ℕ) :
    (∀ e, s.mem key = some e → now - e.timestamp ≤ coflnetCacheExpiry →
      getCached s key now = (some e.value, s)) ∧
    (¬ memFresh s key now →
      ∀ e, s.storage key = some e → now - e.timestamp ≤ coflnetCacheExpiry →
        (getCached s key now).1 = some e.value ∧
        ((getCached s key now).2).mem key = some e) ∧
    ((getCached s key now).1 = none ↔
      ¬ memFresh s key now ∧ ¬ storageFresh s key now) ∧
    ((setCached s key v now).mem key = some ⟨v, now⟩ ∧
      (setCached s key v now).storage key = some ⟨v, now⟩) ∧
    (∀ p, s2.cache = some p → now - s2.lastFetch < bazaarCacheExpiry2 →
      fetchBazaarData2 s2 env now = ⟨some p, s2, [], 0⟩) ∧
    (¬ bazaarMemFresh2 s2 now →
      ∀ p ts, s2.storage = some (p, ts) → now - ts < bazaarCacheExpiry2 →
        fetchBazaarData2 s2 env now = ⟨some p, ⟨some p, ts, s2.storage⟩, [], 0⟩) ∧
    ((fetchBazaarData2 s2 env now).attempts ≠ [] ∨
        (fetchBazaarData2 s2 env now).directAttempts ≠ 0 →
      ¬ bazaarMemFresh2 s2 now ∧ ¬ bazaarStorageFresh2 s2 now) ∧
    (∀ p, (fetchBazaarData2 s2 env now).attempts ≠ [] →
      (fetchBazaarData2 s2 env now).outcome = some p →
      (fetchBazaarData2 s2 env now).state.cache = some p ∧
      (fetchBazaarData2 s2 env now).state.storage = some (p, now)) := by
  refine ⟨?_, ?_, getCached_fst_eq_none_iff s key now, ?_, ?_, ?_, ?_, ?_⟩
  · intro e he hfr
    unfold getCached
    rw [he]
    dsimp only
    rw [if_pos hfr]
  · intro hmem e he hfr
    cases hm : s.mem key with
    | none =>
        unfold getCached
        rw [hm]
        dsimp only
        unfold getCachedStorage
        rw [he]
        dsimp only
        rw [if_pos hfr]
        exact ⟨rfl, by simp⟩
    | some e' =>
        have hstale : ¬ (now - e'.timestamp ≤ coflnetCacheExpiry) := by
          intro hcon
          exact hmem ⟨e', hm, hcon⟩
        unfold getCached
        rw [hm]
        dsimp only
        rw [if_neg hstale]
        unfold getCachedStorage
        dsimp only
        rw [he]
        dsimp only
        rw [if_pos hfr]
        exact ⟨rfl, by simp⟩
  · exact ⟨by simp [setCached], by simp [setCached]⟩
  · intro p hp hfr
    rw [fetchBazaarData2_of_memFresh s2 env now ⟨by simp [hp], hfr⟩, hp]
  · intro hmem p ts hst hfr
    exact fetchBazaarData2_of_storageFresh s2 env now hmem p ts hst hfr
  · intro h
    by_cases hmem : bazaarMemFresh2 s2 now
    · rw [fetchBazaarData2_of_memFresh s2 env now hmem] at h
      simp at h
    · by_cases hstf : bazaarStorageFresh2 s2 now
      · obtain ⟨p, ts, hst, hfr⟩ := hstf
        rw [fetchBazaarData2_of_storageFresh s2 env now hmem p ts hst hfr] at h
        simp at h
      · exact ⟨hmem, hstf⟩
  · intro p hatt hout
    by_cases hmem : bazaarMemFresh2 s2 now
    · rw [fetchBazaarData2_of_memFresh s2 env now hmem] at hatt
      simp at hatt
    · by_cases hstf : bazaarStorageFresh2 s2 now
      · obtain ⟨q, ts, hst, hfr⟩ := hstf
        rw [fetchBazaarData2_of_storageFresh s2 env now hmem q ts hst hfr] at hatt
        simp at hatt
      · rw [fetchBazaarData2_network s2 env now hmem hstf] at hatt hout ⊢
        unfold fetchBazaarNetwork2 at hatt hout ⊢
        rcases hpl : tryProxyList env (List.range proxyCount2) with ⟨o, tr⟩
        rw [hpl] at hatt hout
        cases o with
        | some q =>
            obtain ⟨q, idx⟩ := q
            dsimp only at hout ⊢
            cases hout
            exact ⟨rfl, rfl⟩
        | none =>
            dsimp only at hout ⊢
            cases hd : env.direct with
            | ok q =>
                rw [hd] at hout
                dsimp only at hout ⊢
                cases hout
                exact ⟨rfl, rfl⟩
            | fail =>
                rw [hd] at hout
                cases hout

/-- Witness for C1: with an empty memory tier and a persistent entry
(value 5, written at time 0) read back at time 10, the lookup answers 5 and
promotes the entry into memory; and a write of 7 at time 10 leaves both
tiers with the same entry. -/
theorem c1_two_tier_cache_protocol_witness :
    (getCached cacheWithStorageEntry "bin_X" 10).1 = some 5 ∧
    ((getCached cacheWithStorageEntry "bin_X" 10).2).mem "bin_X" = some ⟨5, 0⟩ ∧
    (setCached cacheWithStorageEntry "bin_X" 7 10).mem "bin_X" =
      (setCached cacheWithStorageEntry "bin_X" 7 10).storage "bin_X" := by
  obtain ⟨-, hpromote, -, hwrite, -⟩ :=
    c1_two_tier_cache_protocol cacheWithStorageEntry "bin_X" 7 bazaarInit2
      envAllFail 10
  have hmemEmpty : ¬ memFresh cacheWithStorageEntry "bin_X" 10 := by
    rintro ⟨e, he, -⟩
    simp [cacheWithStorageEntry] at he
  obtain ⟨h1, h2⟩ :=
    hpromote hmemEmpty ⟨5, 0⟩ (by simp [cacheWithStorageEntry]) (by decide)
  exact ⟨h1, h2, by rw [hwrite.1, hwrite.2]⟩

theorem foldl_add_map {α : Type} (f : α → ℚ) (l : List α) (a : ℚ) :
    l.foldl (fun acc x => acc + f x) a = a + (l.map f).sum := by
  induction l generalizing a with
  | nil => simp
  | cons x xs ih =>
      simp only [List.foldl_cons, List.map_cons, List.sum_cons]
      rw [ih, add_assoc]

/-- C5: the bazaar source's resolved price-per-unit is the first
`buy_summary` entry when that array is non-empty, else the first
`sell_summary` entry when that is non-empty, else 0 — and 0 when the item id
is absent from the product map (`HypixelBazaarAPI.getItemPrice`). -/
theorem c5_bazaar_price_resolution (products : Products) (itemId : String) :
    (List.lookup itemId products = none → getItemPrice products itemId = 0) ∧
    (∀ p e rest, List.lookup itemId products = some p →
      p.buy_summary = some (e :: rest) →
      getItemPrice products itemId = e.pricePerUnit) ∧
    (∀ p e rest, List.lookup itemId products = some p →
      (p.buy_summary = none ∨ p.buy_summary = some []) →
      p.sell_summary = some (e :: rest) →
      getItemPrice products itemId = e.pricePerUnit) ∧
    (∀ p, List.lookup itemId products = some p →
      (p.buy_summary = none ∨ p.buy_summary = some []) →
      (p.sell_summary = none ∨ p.sell_summary = some []) →
      getItemPrice products itemId = 0) := by
  refine ⟨?_, ?_, ?_, ?_⟩
  · intro h
    unfold getItemPrice
    rw [h]
  · intro p e rest hp hbuy
    unfold getItemPrice
    rw [hp]
    dsimp only
    rw [hbuy]
  · intro p e rest hp hbuy hsell
    unfold getItemPrice
    rw [hp]
    dsimp only
    rcases hbuy with h | h <;> rw [h] <;> dsimp only <;> rw [hsell]
  · intro p hp hbuy hsell
    unfold getItemPrice
    rw [hp]
    dsimp only
    rcases hbuy with h | h <;> rw [h] <;> dsimp only <;>
      rcases hsell with h' | h' <;> rw [h']
/-- Witness for C5 on a concrete two-product map: the buy side wins where
present, the sell side otherwise, and an absent id gives 0. -/
theorem c5_bazaar_price_resolution_witness :
    getItemPrice [("ITEM_A", ⟨some [⟨10⟩], some [⟨7⟩]⟩),
      ("ITEM_B", ⟨none, some [⟨7⟩]⟩)] "ITEM_A" = 10 ∧
    getItemPrice [("ITEM_A", ⟨some [⟨10⟩], some [⟨7⟩]⟩),
      ("ITEM_B", ⟨none, some [⟨7⟩]⟩)] "ITEM_B" = 7 ∧
    getItemPrice [("ITEM_A", ⟨some [⟨10⟩], some [⟨7⟩]⟩),
      ("ITEM_B", ⟨none, some [⟨7⟩]⟩)] "ITEM_C" = 0 := by
  refine ⟨?_, ?_, ?_⟩
  · exact (c5_bazaar_price_resolution _ "ITEM_A").2.1 ⟨some [⟨10⟩], some [⟨7⟩]⟩
      ⟨10⟩ [] (by decide) rfl
  · exact (c5_bazaar_price_resolution _ "ITEM_B").2.2.1 ⟨none, some [⟨7⟩]⟩
      ⟨7⟩ [] (by decide) (Or.inl rfl) rfl
  · exact (c5_bazaar_price_resolution _ "ITEM_C").1 (by decide)

/-- C6 counterexample: a recipe declaring its duration as exactly one day
(`days = 1`, everything else 0) with an empty input list and output price
24.  The claim's duration formula gives `24 / (1·24) = 1` coins/hour, but
the `calculateRecipeProfit` variant at lines 346-393 reads only hours and
minutes, gets `totalHours = 0` and returns `profitPerHour = 0`. -/
theorem c6_forge_duration_counterexample :
    (calculateRecipeProfitV1 examplePrices oneDayRecipe).profit = 24 ∧
    (calculateRecipeProfitV1 examplePrices oneDayRecipe).profitPerHour = 0 ∧
    (calculateRecipeProfitV1 examplePrices oneDayRecipe).profit /
      (oneDayRecipe.time.days * 24 + oneDayRecipe.time.hours +
        oneDayRecipe.time.minutes / 60 + oneDayRecipe.time.seconds / 3600) = 1 ∧
    (0 : ℚ) ≠ 1 := by
  refine ⟨?_, ?_, ?_, by norm_num⟩ <;>
    · simp [calculateRecipeProfitV1, oneDayRecipe, examplePrices, forgeInputCost]

/-- C6 (amended): in both `calculateRecipeProfit` variants
`profit = outputPrice − Σ(inputPrice × inputQty)` and `profitPerHour` is
`profit / durationHours` when the duration is positive (0 otherwise), where
`durationHours = days·24 + hours + minutes/60 + seconds/3600` in the
variant at lines 831-873 but only `hours + minutes/60` in the variant at
lines 346-393 (days and seconds are ignored there). -/
theorem c6_forge_profit_amended (priceCache : String → Option ℚ) (recipe : ForgeRecipe) :
    (calculateRecipeProfit priceCache recipe).inputCost =
      (recipe.inputs.map (fun i => forgeInputUnitPrice priceCache i * i.quantity)).sum ∧
    (calculateRecipeProfit priceCache recipe).profit =
      (priceCache recipe.name).getD 0 -
        (recipe.inputs.map (fun i => forgeInputUnitPrice priceCache i * i.quantity)).sum ∧
    (0 < recipe.time.days * 24 + recipe.time.hours + recipe.time.minutes / 60 +
        recipe.time.seconds / 3600 →
      (calculateRecipeProfit priceCache recipe).profitPerHour =
        (calculateRecipeProfit priceCache recipe).profit /
          (recipe.time.days * 24 + recipe.time.hours + recipe.time.minutes / 60 +
            recipe.time.seconds / 3600)) ∧
    (¬ 0 < recipe.time.days * 24 + recipe.time.hours + recipe.time.minutes / 60 +
        recipe.time.seconds / 3600 →
      (calculateRecipeProfit priceCache recipe).profitPerHour = 0) ∧
    (calculateRecipeProfitV1 priceCache recipe).profit =
      (priceCache recipe.name).getD 0 -
        (recipe.inputs.map (fun i => forgeInputUnitPrice priceCache i * i.quantity)).sum ∧
    (0 < recipe.time.hours + recipe.time.minutes / 60 →
      (calculateRecipeProfitV1 priceCache recipe).profitPerHour =
        (calculateRecipeProfitV1 priceCache recipe).profit /
          (recipe.time.hours + recipe.time.minutes / 60)) := by
  have hcost : forgeInputCost priceCache recipe.inputs =
      (recipe.inputs.map (fun i => forgeInputUnitPrice priceCache i * i.quantity)).sum := by
    unfold forgeInputCost
    rw [foldl_add_map (fun i => forgeInputUnitPrice priceCache i * i.quantity)]
    ring
  refine ⟨hcost, ?_, ?_, ?_, ?_, ?_⟩
  · unfold calculateRecipeProfit
    dsimp only
    rw [hcost]
  · intro h
    unfold calculateRecipeProfit
    dsimp only
    rw [if_pos h]
  · intro h
    unfold calculateRecipeProfit
    dsimp only
    rw [if_neg h]
  · unfold calculateRecipeProfitV1
    dsimp only
    rw [hcost]
  · intro h
    unfold calculateRecipeProfitV1
    dsimp only
    rw [if_pos h]

/-- Witness for C6: the spec's example — inputs 2×100 and 1×50, output 500,
duration 1 h 30 min — gives `inputCost = 250`, `profit = 250`,
`profitPerHour = 250 / 1.5 = 500/3` in both variants. -/
theorem c6_forge_profit_amended_witness :
    (calculateRecipeProfit examplePrices exampleRecipe).inputCost = 250 ∧
    (calculateRecipeProfit examplePrices exampleRecipe).profit = 250 ∧
    (calculateRecipeProfit examplePrices exampleRecipe).profitPerHour = 500 / 3 ∧
    (calculateRecipeProfitV1 examplePrices exampleRecipe).profitPerHour = 500 / 3 := by
  have h := c6_forge_profit_amended examplePrices exampleRecipe
  have hsum : (exampleRecipe.inputs.map
      (fun i => forgeInputUnitPrice examplePrices i * i.quantity)).sum = 250 := by
    simp [exampleRecipe, forgeInputUnitPrice, examplePrices]
    norm_num
  have hout : (examplePrices exampleRecipe.name).getD 0 = 500 := by
    simp [exampleRecipe, examplePrices]
  have hdur : (0 : ℚ) < exampleRecipe.time.days * 24 + exampleRecipe.time.hours +
      exampleRecipe.time.minutes / 60 + exampleRecipe.time.seconds / 3600 := by
    simp [exampleRecipe]
    norm_num
  have hdur1 : (0 : ℚ) < exampleRecipe.time.hours + exampleRecipe.time.minutes / 60 := by
    simp [exampleRecipe]
    norm_num
  have hprofit : (calculateRecipeProfit examplePrices exampleRecipe).profit = 250 := by
    rw [h.2.1, hsum, hout]
    norm_num
  have hprofit1 : (calculateRecipeProfitV1 examplePrices exampleRecipe).profit = 250 := by
    rw [h.2.2.2.2.1, hsum, hout]
    norm_num
  refine ⟨by rw [h.1, hsum], hprofit, ?_, ?_⟩
  · rw [h.2.2.1 hdur, hprofit]
    simp [exampleRecipe]
    norm_num
  · rw [h.2.2.2.2.2 hdur1, hprofit1]
    simp [exampleRecipe]
    norm_num

/-- C7: the corpse ROI engine's expected value per roll is
`Σ price·quantity·(weight/totalWeight)` over the drop rows; expected value
per corpse multiplies by the rolls-per-corpse constant;
`profit = expectedValuePerCorpse − keyPrice`; and
`roiPercent = profit/keyPrice·100` for a positive key price, 0 for a free
corpse (`CorpseROICalculator.calculateROI`). -/
theorem c7_corpse_roi_formula (itemPrices : String → Option ℚ)
    (rows : List DropEntry) (totalWeight rolls keyPrice : ℚ) :
    (calculateROICore itemPrices rows totalWeight rolls keyPrice).expectedValuePerRoll =
      (rows.map (fun r =>
        (itemPrices r.name).getD 0 * r.quantity * (r.weight / totalWeight))).sum ∧
    (calculateROICore itemPrices rows totalWeight rolls keyPrice).expectedValuePerCorpse =
      (calculateROICore itemPrices rows totalWeight rolls keyPrice).expectedValuePerRoll *
        rolls ∧
    (calculateROICore itemPrices rows totalWeight rolls keyPrice).profit =
      (calculateROICore itemPrices rows totalWeight rolls keyPrice).expectedValuePerCorpse -
        keyPrice ∧
    (0 < keyPrice →
      (calculateROICore itemPrices rows totalWeight rolls keyPrice).roiPercentage =
        (calculateROICore itemPrices rows totalWeight rolls keyPrice).profit /
          keyPrice * 100) ∧
    (keyPrice = 0 →
      (calculateROICore itemPrices rows totalWeight rolls keyPrice).roiPercentage = 0) := by
  have hsum : (calculateROICore itemPrices rows totalWeight rolls keyPrice).expectedValuePerRoll =
      (rows.map (fun r =>
        (itemPrices r.name).getD 0 * r.quantity * (r.weight / totalWeight))).sum := by
    unfold calculateROICore
    dsimp only
    rw [foldl_add_map (fun r : DropEntry =>
      (itemPrices r.name).getD 0 * r.quantity * (r.weight / totalWeight))]
    ring
  refine ⟨hsum, rfl, rfl, ?_, ?_⟩
  · intro h
    unfold calculateROICore
    dsimp only
    rw [if_pos h]
  · intro h
    unfold calculateROICore
    dsimp only
    rw [if_neg (by rw [h]; exact lt_irrefl 0)]

/-- Witness for C7: the spec's example — one row
`{quantity: 1, weight: 10, price: 1000}`, `totalWeight = 100`,
`rollsPerCorpse = 5`, `keyPrice = 200` — gives expected value 100 per roll,
500 per corpse, profit 300 and ROI 150 %. -/
theorem c7_corpse_roi_formula_witness :
    0 < (200 : ℚ) ∧
    (calculateROICore examplePrices [⟨"Item", 1, 10, "bazaar", none, none, none, none⟩]
      100 5 200).profit = 300 ∧
    (calculateROICore examplePrices [⟨"Item", 1, 10, "bazaar", none, none, none, none⟩]
      100 5 200).roiPercentage = 150 := by
  have h := c7_corpse_roi_formula examplePrices
    [⟨"Item", 1, 10, "bazaar", none, none, none, none⟩] 100 5 200
  have hroll : (calculateROICore examplePrices
      [⟨"Item", 1, 10, "bazaar", none, none, none, none⟩] 100 5 200).expectedValuePerRoll
        = 100 := by
    rw [h.1]
    simp [examplePrices]
    norm_num
  have hprofit : (calculateROICore examplePrices
      [⟨"Item", 1, 10, "bazaar", none, none, none, none⟩] 100 5 200).profit = 300 := by
    rw [h.2.2.1, h.2.1, hroll]
    norm_num
  refine ⟨by norm_num, hprofit, ?_⟩
  rw [h.2.2.2.1 (by norm_num), hprofit]
  norm_num

/-- C8 counterexample: with both conversion paths priced
(`flawedPrice = finePrice = 1`) but no perfect-gem price
(`perfectPrice = 0`), `CrystalCalculator.calculateProfits` leaves
`bestCost = 0` and `profit = 0` (`'No Data'` branch), whereas the claim
asserts `bestCost = min(1·32000, 1·400) = 400`. -/
theorem c8_crystal_counterexample :
    (calculateProfitsEntry 1 1 0).bestCost = 0 ∧
    (calculateProfitsEntry 1 1 0).profit = 0 ∧
    min ((1 : ℚ) * flawedQuantity) ((1 : ℚ) * fineQuantity) = 400 ∧
    (0 : ℚ) ≠ 400 := by
  refine ⟨?_, ?_, ?_, by norm_num⟩
  · simp [calculateProfitsEntry]
  · simp [calculateProfitsEntry]
  · rw [flawedQuantity, fineQuantity]
    norm_num

/-- C8 (amended): for a gemstone with both conversion paths priced *and a
positive perfect-gem price*, the standalone engine's `bestCost` is
`min(flawedPrice·32000, finePrice·400)`, its `profit` is
`perfectPrice − bestCost`, and an exact tie deterministically picks the
flawed method (`flawedCost <= fineCost`); the shared-utility variant
computes the same minimum cost but clamps the returned crystal value at 0
(`max(0, perfectPrice − bestCost)`). -/
theorem c8_crystal_conversion_amended (flawedPrice finePrice perfectPrice : ℚ)
    (hf : 0 < flawedPrice) (hn : 0 < finePrice) (hp : 0 < perfectPrice) :
    (calculateProfitsEntry flawedPrice finePrice perfectPrice).bestCost =
      min (flawedPrice * flawedQuantity) (finePrice * fineQuantity) ∧
    (calculateProfitsEntry flawedPrice finePrice perfectPrice).profit =
      perfectPrice - min (flawedPrice * flawedQuantity) (finePrice * fineQuantity) ∧
    (flawedPrice * flawedQuantity = finePrice * fineQuantity →
      (calculateProfitsEntry flawedPrice finePrice perfectPrice).bestMethod =
        BestMethod.flawed) ∧
    getGemstonePriceCrystal flawedPrice finePrice perfectPrice =
      max 0 (perfectPrice -
        min (flawedPrice * flawedNeededForPerfect) (finePrice * fineNeededForPerfect)) := by
  have hfc : 0 < flawedPrice * flawedQuantity :=
    mul_pos hf (by rw [flawedQuantity]; norm_num)
  have hnc : 0 < finePrice * fineQuantity :=
    mul_pos hn (by rw [fineQuantity]; norm_num)
  have hminpos : 0 < min (flawedPrice * flawedQuantity) (finePrice * fineQuantity) :=
    lt_min hfc hnc
  have hmain : calculateProfitsEntry flawedPrice finePrice perfectPrice =
      ⟨if flawedPrice * flawedQuantity ≤ finePrice * fineQuantity then .flawed else .fine,
        min (flawedPrice * flawedQuantity) (finePrice * fineQuantity),
        perfectPrice - min (flawedPrice * flawedQuantity) (finePrice * fineQuantity)⟩ := by
    unfold calculateProfitsEntry
    rw [if_pos hp]
    by_cases hle : flawedPrice * flawedQuantity ≤ finePrice * fineQuantity
    · rw [min_eq_left hle]
      simp only [if_pos (And.intro hfc hnc), if_pos hle, if_pos hfc]
    · rw [min_eq_right (le_of_not_le hle)]
      simp only [if_pos (And.intro hfc hnc), if_neg hle, if_pos hnc]
  have hfc2 : 0 < flawedPrice * flawedNeededForPerfect :=
    mul_pos hf (by rw [flawedNeededForPerfect, normalPerPerfect, normalPerFlawed]; norm_num)
  have hnc2 : 0 < finePrice * fineNeededForPerfect :=
    mul_pos hn (by rw [fineNeededForPerfect, normalPerPerfect, normalPerFine]; norm_num)
  have hminpos2 :
      0 < min (flawedPrice * flawedNeededForPerfect) (finePrice * fineNeededForPerfect) :=
    lt_min hfc2 hnc2
  refine ⟨by rw [hmain], by rw [hmain], ?_, ?_⟩
  · intro htie
    rw [hmain]
    simp only [if_pos (le_of_eq htie)]
  · unfold getGemstonePriceCrystal
    rw [if_neg (not_le.mpr hp)]
    simp only [if_pos (And.intro hfc2 hnc2), if_pos hminpos2]

/-- Witness for C8: flawed 1/fine 80/perfect 40000 is an exact tie
(`1·32000 = 80·400`): the flawed method is chosen, `bestCost = 32000`,
`profit = 8000`, and the shared utility returns the same 8000 (positive, so
the clamp does not bite). -/
theorem c8_crystal_conversion_amended_witness :
    (0 : ℚ) < 1 ∧ (0 : ℚ) < 80 ∧ (0 : ℚ) < 40000 ∧
    (1 : ℚ) * flawedQuantity = 80 * fineQuantity ∧
    (calculateProfitsEntry 1 80 40000).bestMethod = BestMethod.flawed ∧
    (calculateProfitsEntry 1 80 40000).bestCost = 32000 ∧
    (calculateProfitsEntry 1 80 40000).profit = 8000 ∧
    getGemstonePriceCrystal 1 80 40000 = 8000 := by
  have h := c8_crystal_conversion_amended 1 80 40000 (by norm_num) (by norm_num)
    (by norm_num)
  have htie : (1 : ℚ) * flawedQuantity = 80 * fineQuantity := by
    rw [flawedQuantity, fineQuantity]
    norm_num
  have hminq : min ((1 : ℚ) * flawedQuantity) (80 * fineQuantity) = 32000 := by
    rw [flawedQuantity, fineQuantity]
    norm_num
  have hminn : min ((1 : ℚ) * flawedNeededForPerfect) (80 * fineNeededForPerfect) = 32000 := by
    rw [flawedNeededForPerfect, fineNeededForPerfect, normalPerPerfect, normalPerFlawed,
      normalPerFine]
    norm_num
  refine ⟨by norm_num, by norm_num, by norm_num, htie, h.2.2.1 htie, ?_, ?_, ?_⟩
  · rw [h.1, hminq]
  · rw [h.2.1, hminq]
    norm_num
  · rw [h.2.2.2, hminn]
    norm_num

theorem replaceWsAux_of_no_ws (b : Bool) (l : List Char)
    (h : ∀ c ∈ l, c.isWhitespace = false) : replaceWsAux b l = l := by
  induction l generalizing b with
  | nil => rfl
  | cons c cs ih =>
      have hc := h c (by simp)
      simp [replaceWsAux, hc, ih false (fun d hd => h d (by simp [hd]))]

theorem stripParens_cons (c : Char) (l : List Char) :
    stripParens (c :: l) =
      if (c == '(' || c == ')') = true then stripParens l else c :: stripParens l := by
  unfold stripParens
  rw [List.filter_cons]
  cases h : (c == '(' || c == ')') <;> simp [h]

theorem stripParens_replaceWsAux_ne_nil (l : List Char) (c : Char) (hc : c ∈ l)
    (hp : (c == '(' || c == ')') = false) :
    stripParens (replaceWsAux false l) ≠ [] := by
  induction l with
  | nil => cases hc
  | cons d ds ih =>
      by_cases hw : d.isWhitespace
      · simp [replaceWsAux, hw, stripParens_cons]
      · by_cases hd : (d == '(' || d == ')') = true
        · have hcds : c ∈ ds := by
            rcases List.mem_cons.mp hc with rfl | h
            · rw [hp] at hd
              cases hd
            · exact h
          have hstep : stripParens (replaceWsAux false (d :: ds)) =
              stripParens (replaceWsAux false ds) := by
            simp only [replaceWsAux, hw, if_false, Bool.false_eq_true, stripParens_cons,
              hd, if_true]
          rw [hstep]
          exact ih hcds
        · have hstep : stripParens (replaceWsAux false (d :: ds)) =
              d :: stripParens (replaceWsAux false ds) := by
            simp only [replaceWsAux, hw, if_false, Bool.false_eq_true, stripParens_cons,
              hd, if_false]
          rw [hstep]
          simp

theorem nameToApiKey_eq_empty_iff (s : String) :
    nameToApiKey s = "" ↔ ∀ c ∈ (jsToUpper s).data, c = '(' ∨ c = ')' := by
  constructor
  · intro h
    by_contra hcon
    push_neg at hcon
    obtain ⟨c, hc, hp⟩ := hcon
    have hpb : (c == '(' || c == ')') = false := by
      simp [hp.1, hp.2]
    have hne := stripParens_replaceWsAux_ne_nil (jsToUpper s).data c hc hpb
    apply hne
    have hdata : (nameToApiKey s).data = ("" : String).data := by rw [h]
    simpa [nameToApiKey] using hdata
  · intro h
    have hnw : ∀ c ∈ (jsToUpper s).data, c.isWhitespace = false := by
      intro c hc
      rcases h c hc with rfl | rfl <;> rfl
    unfold nameToApiKey
    rw [replaceWsAux_of_no_ws false _ hnw]
    have hfil : stripParens (jsToUpper s).data = [] := by
      rw [stripParens, List.filter_eq_nil_iff]
      intro c hc
      rcases h c hc with rfl | rfl <;> simp
    rw [hfil]

/-- C4 counterexample: against the catalog `[{name: "Diamond", id:
"DIAMOND"}]` the display name `"()"` has no exact and no partial match, yet
`findItemId` returns the empty string — the deterministic synthesis
(uppercase, underscore whitespace runs, strip parentheses) erases the whole
name, contradicting "returns a non-empty string". -/
theorem c4_catalog_resolution_counterexample :
    smallCatalog.find? (exactNameMatch "()") = none ∧
    smallCatalog.find? (looseNameMatch "()") = none ∧
    findItemId smallCatalog "()" = "" ∧
    ("" : String).length = 0 := by
  refine ⟨rfl, rfl, rfl, rfl⟩

/-- C4 (amended): with a well-formed catalog (non-empty names and ids),
a display name with a case-insensitive exact match resolves to the first
matching entry's id; a name with neither an exact nor a partial match
resolves to the deterministic synthesis `nameToApiKey` (uppercase,
whitespace runs to one underscore, parentheses stripped) without throwing;
and that synthesis is empty exactly when every character of the uppercased
name is a parenthesis (hence non-empty for every name containing any other
character). -/
theorem c4_catalog_resolution_amended (db : List ItemEntry) (itemName : String)
    (hwf : ∀ e ∈ db, e.name ≠ "" ∧ e.id ≠ "") :
    (∀ it, db.find? (exactNameMatch itemName) = some it →
      findItemId db itemName = it.id) ∧
    (db.find? (exactNameMatch itemName) = none →
      db.find? (looseNameMatch itemName) = none →
      findItemId db itemName = nameToApiKey itemName) ∧
    (nameToApiKey itemName = "" ↔ ∀ c ∈ (jsToUpper itemName).data, c = '(' ∨ c = ')') := by
  refine ⟨?_, ?_, nameToApiKey_eq_empty_iff itemName⟩
  · intro it hfind
    have hmem := List.mem_of_find?_eq_some hfind
    have hid := (hwf it hmem).2
    have hne : ¬ db.isEmpty = true := by
      intro hemp
      rw [List.isEmpty_iff.mp hemp] at hmem
      cases hmem
    unfold findItemId
    rw [if_neg hne, hfind]
    dsimp only
    rw [if_pos hid]
  · intro hexact hloose
    by_cases hemp : db.isEmpty = true
    · unfold findItemId
      rw [if_pos hemp]
    · unfold findItemId
      rw [if_neg hemp, hexact]
      dsimp only
      unfold findItemIdTail
      rw [hloose]

/-- Witness for C4: on the one-entry catalog, `"diamond"` (case-insensitive
match) resolves to `"DIAMOND"`; `"Gold Ingot"` (no match) resolves to the
synthesized `"GOLD_INGOT"`, which is non-empty. -/
theorem c4_catalog_resolution_amended_witness :
    findItemId smallCatalog "diamond" = "DIAMOND" ∧
    findItemId smallCatalog "Gold Ingot" = nameToApiKey "Gold Ingot" ∧
    nameToApiKey "Gold Ingot" = "GOLD_INGOT" ∧
    ¬ nameToApiKey "Gold Ingot" = "" := by
  have h := c4_catalog_resolution_amended smallCatalog "diamond"
    (by intro e he; simp [smallCatalog] at he; subst he; exact ⟨by decide, by decide⟩)
  have h2 := c4_catalog_resolution_amended smallCatalog "Gold Ingot"
    (by intro e he; simp [smallCatalog] at he; subst he; exact ⟨by decide, by decide⟩)
  refine ⟨?_, ?_, rfl, ?_⟩
  · have := h.1 ⟨"Diamond", "DIAMOND"⟩ (by rfl)
    simpa using this
  · exact h2.2.1 rfl rfl
  · intro hempty
    have hall := (h2.2.2).mp hempty
    have := hall 'G' (by decide)
    rcases this with h' | h' <;> cases h'

/-- C9 counterexample: sorting the freshly loaded umber table by weight
replaces `this.dropTables['umber']` with a *different* list — the rows are
reordered (ascending weight) and carry the computed `price`/`total`/…
fields, so the loaded table does not hold the same entries as when it was
loaded. -/
theorem c9_static_tables_counterexample :
    ((sortTableOp corpseStateLoaded "weight").dropTables "umber").map
      (fun tbl => tbl.map DropEntry.name) = some ["Light", "Heavy"] ∧
    (corpseStateLoaded.dropTables "umber").map
      (fun tbl => tbl.map DropEntry.name) = some ["Heavy", "Light"] ∧
    (some ["Light", "Heavy"] ≠ some ["Heavy", "Light"]) ∧
    ((sortTableOp corpseStateLoaded "weight").dropTables "umber").map
      (fun tbl => tbl.map DropEntry.price) = some [some 0, some 0] ∧
    (corpseStateLoaded.dropTables "umber").map
      (fun tbl => tbl.map DropEntry.price) = some [none, none] := by
  refine ⟨by decide, by decide, by decide, by decide, by decide⟩

/-- C9 (amended): ROI calculation and price updates never touch the loaded
drop tables, and sorting a table of another corpse type never touches it
either; but `sortTable` *replaces* the current corpse's table with a
reordered copy whose rows keep the loaded name/quantity/weight/source values
(a permutation on those fields) while gaining the computed
`price`/`total`/`weightPercent`/`weighted` display fields.  (The editing
methods `addDropItem`/`removeDropItem`/`updateDropItem` mutate the tables
outright, but are not among the operations the claim enumerates.) -/
theorem c9_static_tables_amended (s : CorpseState) (fetched : String → ℚ)
    (column : String) :
    ((calculateROIOp s).2).dropTables = s.dropTables ∧
    (updatePricesOp s fetched).dropTables = s.dropTables ∧
    (∀ corpse tbl, s.currentCorpse = some corpse → s.dropTables corpse = some tbl →
      ∃ tbl', (sortTableOp s column).dropTables corpse = some tbl' ∧
        List.Perm (tbl'.map coreFields) (tbl.map coreFields)) ∧
    (∀ corpse c, s.currentCorpse = some corpse → c ≠ corpse →
      (sortTableOp s column).dropTables c = s.dropTables c) := by
  refine ⟨?_, ?_, ?_, ?_⟩
  · unfold calculateROIOp
    rcases s.currentCorpse with _ | corpse
    · rfl
    · dsimp only
      rcases s.dropTables corpse with _ | items
      · rfl
      · dsimp only
        by_cases h : items.isEmpty = true <;> simp [h]
  · unfold updatePricesOp
    rcases s.currentCorpse with _ | corpse
    · rfl
    · dsimp only
      rcases s.dropTables corpse with _ | items <;> rfl
  · intro corpse tbl hc ht
    unfold sortTableOp
    rw [hc]
    dsimp only
    rw [ht]
    dsimp only
    refine ⟨_, if_pos rfl, ?_⟩
    refine ((List.perm_insertionSort _ _).map coreFields).trans ?_
    rw [List.map_map]
    have hcomp : coreFields ∘ augmentEntry s.itemPrices
        ((corpseMaxWeights corpse).getD 0) ((corpseRolls corpse).getD 0) = coreFields := by
      funext e
      rfl
    rw [hcomp]
  · intro corpse c hc hne
    unfold sortTableOp
    rw [hc]
    dsimp only
    rcases ht : s.dropTables corpse with _ | items
    · rfl
    · dsimp only
      rw [if_neg hne]

/-- Witness for C9: on the loaded two-row umber state, ROI calculation and
a price update leave the tables untouched, and the sorted table is a
permutation of the loaded rows on the name/quantity/weight/source fields. -/
theorem c9_static_tables_amended_witness :
    ((calculateROIOp corpseStateLoaded).2).dropTables = corpseStateLoaded.dropTables ∧
    (updatePricesOp corpseStateLoaded (fun _ => 3)).dropTables =
      corpseStateLoaded.dropTables ∧
    ∃ tbl', (sortTableOp corpseStateLoaded "weight").dropTables "umber" = some tbl' ∧
      List.Perm (tbl'.map coreFields) (loadedRows.map coreFields) := by
  have h := c9_static_tables_amended corpseStateLoaded (fun _ => 3) "weight"
  exact ⟨h.1, h.2.1, h.2.2.1 "umber" loadedRows rfl rfl⟩

theorem getCached_snd_none_of_miss (s : CoflnetCache) (key : String) (now : ℕ)
    (h : (getCached s key now).1 = none) :
    ((getCached s key now).2).mem key = none ∧
      ((getCached s key now).2).storage key = none := by
  unfold getCached at h ⊢
  cases hm : s.mem key with
  | some e =>
      rw [hm] at h
      dsimp only at h ⊢
      by_cases hfr : now - e.timestamp ≤ coflnetCacheExpiry
      · rw [if_pos hfr] at h
        cases h
      · rw [if_neg hfr] at h ⊢
        unfold getCachedStorage at h ⊢
        dsimp only at h ⊢
        cases hs : s.storage key with
        | some e' =>
            rw [hs] at h
            dsimp only at h ⊢
            by_cases hfr' : now - e'.timestamp ≤ coflnetCacheExpiry
            · rw [if_pos hfr'] at h
              cases h
            · rw [if_neg hfr'] at h ⊢
              exact ⟨by simp, by simp⟩
        | none =>
            exact ⟨by simp, by simpa using hs⟩
  | none =>
      rw [hm] at h
      dsimp only at h ⊢
      unfold getCachedStorage at h ⊢
      cases hs : s.storage key with
      | some e' =>
          rw [hs] at h
          dsimp only at h ⊢
          by_cases hfr' : now - e'.timestamp ≤ coflnetCacheExpiry
          · rw [if_pos hfr'] at h
            cases h
          · rw [if_neg hfr'] at h ⊢
            exact ⟨by simpa using hm, by simp⟩
      | none =>
          exact ⟨by simpa using hm, by simpa using hs⟩

theorem getCached_of_both_none (s : CoflnetCache) (key : String) (now : ℕ)
    (hm : s.mem key = none) (hs : s.storage key = none) :
    getCached s key now = (none, s) := by
  unfold getCached getCachedStorage
  rw [hm, hs]

theorem getCached_after_setCached (s : CoflnetCache) (key : String) (v : ℚ)
    (now now' : ℕ) (h : now' - now ≤ coflnetCacheExpiry) :
    getCached (setCached s key v now) key now' = (some v, setCached s key v now) := by
  unfold getCached setCached
  dsimp only
  rw [if_pos rfl]
  dsimp only
  rw [if_pos h]

theorem resolveItemTag_of_underscore (db : Option (List ItemEntry)) (name : String)
    (hn : name.data.contains '_' = true) :
    resolveItemTag db name = .ok (some name) := by
  unfold resolveItemTag
  rw [if_pos hn]

theorem getLowestBIN_hit_eq (db : Option (List ItemEntry)) (env : AuctionEnv)
    (s : CoflnetCache) (name : String) (now : ℕ)
    (hn : name.data.contains '_' = true) (v : ℚ) (s' : CoflnetCache)
    (hgc : getCached s ("bin_" ++ name) now = (some v, s')) :
    getLowestBIN db env s name now = (v, s', false) := by
  unfold getLowestBIN getLowestBINWith getLowestBINRun
  rw [resolveItemTag_of_underscore db name hn]
  dsimp only [twoTierCacheIface, tagText]
  rw [hgc]

theorem getLowestBIN_miss_eq (db : Option (List ItemEntry)) (env : AuctionEnv)
    (s : CoflnetCache) (name : String) (now : ℕ)
    (hn : name.data.contains '_' = true)
    (hmiss : (getCached s ("bin_" ++ name) now).1 = none) :
    getLowestBIN db env s name now =
      match env.bin with
      | .ok [] =>
          (0, setCached ((getCached s ("bin_" ++ name) now).2) ("bin_" ++ name) 0 now, true)
      | .ok (l :: _) =>
          (listingPrice l,
            setCached ((getCached s ("bin_" ++ name) now).2) ("bin_" ++ name)
              (listingPrice l) now, true)
      | .okNonArray =>
          (0, setCached ((getCached s ("bin_" ++ name) now).2) ("bin_" ++ name) 0 now, true)
      | .notFound =>
          match env.alt with
          | .ok m mu =>
              (jsOrQ m (jsOrQ mu 0),
                setCached ((getCached s ("bin_" ++ name) now).2) ("bin_" ++ name)
                  (jsOrQ m (jsOrQ mu 0)) now, true)
          | .notOk =>
              (0, setCached ((getCached s ("bin_" ++ name) now).2) ("bin_" ++ name) 0 now,
                true)
          | .err => (0, (getCached s ("bin_" ++ name) now).2, true)
      | .httpError => (0, (getCached s ("bin_" ++ name) now).2, true)
      | .netError => (0, (getCached s ("bin_" ++ name) now).2, true)
      | .parseError => (0, (getCached s ("bin_" ++ name) now).2, true) := by
  unfold getLowestBIN getLowestBINWith getLowestBINRun
  rw [resolveItemTag_of_underscore db name hn]
  dsimp only [twoTierCacheIface, tagText]
  rcases hgc : getCached s ("bin_" ++ name) now with ⟨o, s1⟩
  have ho : o = none := by
    rw [hgc] at hmiss
    exact hmiss
  subst ho
  dsimp only
  cases env.bin with
  | ok listings =>
      cases listings <;> rfl
  | okNonArray => rfl
  | notFound => cases env.alt <;> rfl
  | httpError => rfl
  | netError => rfl
  | parseError => rfl

/-- C2 counterexample: an explicit upstream 404 does *not* always cache 0 —
`getLowestBIN` first tries the alternative price endpoint, and when that
answers (median 500 here) the cached value is 500, not 0
(`src/unnamed/part_001` lines 399-409; same code at
`src/js/apis/coflnet-auction-api.js` lines 140-153). -/
theorem c2_not_found_counterexample :
    (getLowestBIN (some []) envNotFoundAltOk emptyCoflnetCache "X_TAG" 7).1 = 500 ∧
    ((getLowestBIN (some []) envNotFoundAltOk emptyCoflnetCache "X_TAG" 7).2.1).mem
      "bin_X_TAG" = some ⟨500, 7⟩ ∧
    (⟨500, 7⟩ : CacheEntry) ≠ ⟨0, 7⟩ := by
  have hmiss : (getCached emptyCoflnetCache ("bin_" ++ "X_TAG") 7).1 = none := by
    rw [getCached_of_both_none emptyCoflnetCache ("bin_" ++ "X_TAG") 7 rfl rfl]
  have h := getLowestBIN_miss_eq (some []) envNotFoundAltOk emptyCoflnetCache "X_TAG" 7
    rfl hmiss
  rw [getCached_of_both_none emptyCoflnetCache ("bin_" ++ "X_TAG") 7 rfl rfl] at h
  have henv : envNotFoundAltOk.bin = .notFound := rfl
  rw [henv] at h
  have halt : envNotFoundAltOk.alt = .ok 500 0 := rfl
  rw [halt] at h
  dsimp only at h
  have hq : jsOrQ 500 (jsOrQ 0 0) = 500 := by
    unfold jsOrQ
    norm_num
  rw [hq] at h
  rw [h]
  refine ⟨rfl, ?_, by simp⟩
  unfold setCached
  simp

/-- C2 (amended): under a cache miss, an empty listing array caches 0; a
404 whose alternative price endpoint responds non-ok caches 0; but a 404
whose alternative endpoint succeeds caches the alternative's
`median || mean || 0` (which need not be 0); network errors, non-404 HTTP
statuses and JSON parse failures return 0 *without* writing the cache, so
the very next call misses the cache and attempts a fresh upstream fetch;
a previously cached 0 is served within the expiry window with no upstream
request at all.  (A 200 response whose JSON is not an array also caches 0,
like an empty array.) -/
theorem c2_zero_caching_amended (db : Option (List ItemEntry)) (env : AuctionEnv)
    (s : CoflnetCache) (name : String) (now : ℕ)
    (hn : name.data.contains '_' = true) :
    (∀ v s', getCached s ("bin_" ++ name) now = (some v, s') →
      getLowestBIN db env s name now = (v, s', false)) ∧
    ((getCached s ("bin_" ++ name) now).1 = none →
      (env.bin = .ok [] →
        getLowestBIN db env s name now =
          (0, setCached ((getCached s ("bin_" ++ name) now).2) ("bin_" ++ name) 0 now,
            true)) ∧
      (env.bin = .notFound → env.alt = .notOk →
        getLowestBIN db env s name now =
          (0, setCached ((getCached s ("bin_" ++ name) now).2) ("bin_" ++ name) 0 now,
            true)) ∧
      (∀ m mu, env.bin = .notFound → env.alt = .ok m mu →
        getLowestBIN db env s name now =
          (jsOrQ m (jsOrQ mu 0),
            setCached ((getCached s ("bin_" ++ name) now).2) ("bin_" ++ name)
              (jsOrQ m (jsOrQ mu 0)) now, true)) ∧
      ((env.bin = .httpError ∨ env.bin = .netError ∨ env.bin = .parseError) →
        (getLowestBIN db env s name now).1 = 0 ∧
        (getLowestBIN db env s name now).2.2 = true ∧
        (∀ now', (getCached ((getLowestBIN db env s name now).2.1) ("bin_" ++ name)
          now').1 = none))) ∧
    (∀ now', now' - now ≤ coflnetCacheExpiry →
      getLowestBIN db env (setCached s ("bin_" ++ name) 0 now) name now' =
        (0, setCached s ("bin_" ++ name) 0 now, false)) := by
  refine ⟨?_, ?_, ?_⟩
  · intro v s' hgc
    exact getLowestBIN_hit_eq db env s name now hn v s' hgc
  · intro hmiss
    refine ⟨?_, ?_, ?_, ?_⟩
    · intro hb
      rw [getLowestBIN_miss_eq db env s name now hn hmiss, hb]
    · intro hb ha
      rw [getLowestBIN_miss_eq db env s name now hn hmiss, hb, ha]
    · intro m mu hb ha
      rw [getLowestBIN_miss_eq db env s name now hn hmiss, hb, ha]
    · intro hb
      obtain ⟨hm, hs⟩ := getCached_snd_none_of_miss s ("bin_" ++ name) now hmiss
      rcases hb with hb | hb | hb <;>
        rw [getLowestBIN_miss_eq db env s name now hn hmiss, hb] <;>
        exact ⟨rfl, rfl, fun now' => by
          rw [getCached_of_both_none _ _ now' hm hs]⟩
  · intro now' hwin
    exact getLowestBIN_hit_eq db env (setCached s ("bin_" ++ name) 0 now) name now' hn
      0 (setCached s ("bin_" ++ name) 0 now)
      (getCached_after_setCached s ("bin_" ++ name) 0 now now' hwin)

/-- Witness for C2 (amended): a 404 with a failing alternative endpoint
writes a 0 into the cache, and a later call within the window — even with
the network now failing — serves that 0 with no upstream request. -/
theorem c2_zero_caching_amended_witness :
    getLowestBIN (some []) ⟨.notFound, .notOk⟩ emptyCoflnetCache "X_TAG" 7 =
      (0, setCached emptyCoflnetCache "bin_X_TAG" 0 7, true) ∧
    getLowestBIN (some []) ⟨.netError, .err⟩ (setCached emptyCoflnetCache "bin_X_TAG" 0 7)
      "X_TAG" 9 = (0, setCached emptyCoflnetCache "bin_X_TAG" 0 7, false) := by
  have hmiss : (getCached emptyCoflnetCache ("bin_" ++ "X_TAG") 7).1 = none := by
    rw [getCached_of_both_none emptyCoflnetCache ("bin_" ++ "X_TAG") 7 rfl rfl]
  have h1 := c2_zero_caching_amended (some []) ⟨.notFound, .notOk⟩ emptyCoflnetCache
    "X_TAG" 7 rfl
  have h2 := c2_zero_caching_amended (some []) ⟨.netError, .err⟩ emptyCoflnetCache
    "X_TAG" 7 rfl
  constructor
  · have := (h1.2.1 hmiss).2.1 rfl rfl
    rw [getCached_of_both_none emptyCoflnetCache ("bin_" ++ "X_TAG") 7 rfl rfl] at this
    exact this
  · have := h2.2.2 9 (by decide)
    exact this

/-- C10: the auction price getters never propagate an exception — the whole
body of `getLowestBIN`/`getAverageBIN` sits inside
`try { … } catch { return 0 }`, so every thrown error (network failure,
non-ok status, JSON parse failure, and the `TypeError` from consulting a
`null` items database) resolves the call to the number 0; a body that does
not throw has its value returned unchanged.  Stated for the
`src/js/apis/coflnet-auction-api.js` variant (memory-tier cache). -/
theorem c10_auction_getters_never_throw (db : Option (List ItemEntry))
    (env : AuctionEnv) (s : MemCache) (name : String) (now : ℕ) :
    (∀ e, (getLowestBINRun memCacheIface db env s name now).1 = .error e →
      getLowestBINMem db env s name now =
        (0, (getLowestBINRun memCacheIface db env s name now).2.1,
          (getLowestBINRun memCacheIface db env s name now).2.2)) ∧
    (∀ p, (getLowestBINRun memCacheIface db env s name now).1 = .ok p →
      (getLowestBINMem db env s name now).1 = p) ∧
    (∀ e, (getAverageBINRun memCacheIface db env s name now).1 = .error e →
      getAverageBINMem db env s name now =
        (0, (getAverageBINRun memCacheIface db env s name now).2.1,
          (getAverageBINRun memCacheIface db env s name now).2.2)) ∧
    (∀ p, (getAverageBINRun memCacheIface db env s name now).1 = .ok p →
      (getAverageBINMem db env s name now).1 = p) ∧
    (db = none → name.data.contains '_' = false →
      (getLowestBINRun memCacheIface db env s name now).1 = .error .typeError ∧
      (getAverageBINRun memCacheIface db env s name now).1 = .error .typeError) := by
  refine ⟨?_, ?_, ?_, ?_, ?_⟩
  · intro e he
    unfold getLowestBINMem getLowestBINWith
    rcases hr : getLowestBINRun memCacheIface db env s name now with ⟨res, st, f⟩
    rw [hr] at he
    dsimp only at he ⊢
    subst he
    rfl
  · intro p hp
    unfold getLowestBINMem getLowestBINWith
    rcases hr : getLowestBINRun memCacheIface db env s name now with ⟨res, st, f⟩
    rw [hr] at hp
    dsimp only at hp ⊢
    subst hp
    rfl
  · intro e he
    unfold getAverageBINMem getAverageBINWith
    rcases hr : getAverageBINRun memCacheIface db env s name now with ⟨res, st, f⟩
    rw [hr] at he
    dsimp only at he ⊢
    subst he
    rfl
  · intro p hp
    unfold getAverageBINMem getAverageBINWith
    rcases hr : getAverageBINRun memCacheIface db env s name now with ⟨res, st, f⟩
    rw [hr] at hp
    dsimp only at hp ⊢
    subst hp
    rfl
  · intro hdb hus
    subst hdb
    have htag : resolveItemTag none name = .error .typeError := by
      unfold resolveItemTag
      rw [if_neg (by rw [hus]; exact Bool.false_ne_true)]
    unfold getLowestBINRun getAverageBINRun
    rw [htag]
    exact ⟨rfl, rfl⟩

/-- Witness for C10: with the items database unloaded (`null`) and a name
that forces the catalog lookup, both getters resolve to 0 instead of
propagating the `TypeError`; a thrown network error likewise resolves to 0. -/
theorem c10_auction_getters_never_throw_witness :
    (getLowestBINMem none envNetError (fun _ => none) "Hyperion" 3).1 = 0 ∧
    (getAverageBINMem none envNetError (fun _ => none) "Hyperion" 3).1 = 0 ∧
    (getLowestBINMem (some []) envNetError (fun _ => none) "X_TAG" 3).1 = 0 := by
  have h := c10_auction_getters_never_throw none envNetError (fun _ => none) "Hyperion" 3
  obtain ⟨herr1, herr2⟩ := h.2.2.2.2 rfl rfl
  have h2 := c10_auction_getters_never_throw (some []) envNetError (fun _ => none)
    "X_TAG" 3
  refine ⟨?_, ?_, ?_⟩
  · rw [h.1 .typeError herr1]
  · rw [h.2.2.1 .typeError herr2]
  · have herr3 : (getLowestBINRun memCacheIface (some []) envNetError (fun _ => none)
        "X_TAG" 3).1 = .error .fetchError := rfl
    rw [h2.1 .fetchError herr3]

theorem tryProxyList_get (env : BazaarEnv) (l : List ℕ) (j : ℕ)
    (hj : j < (tryProxyList env l).2.length) :
    (tryProxyList env l).2[j]? = l[j]? := by
  induction l generalizing j with
  | nil => simp [tryProxyList] at hj
  | cons idx rest ih =>
      unfold tryProxyList at hj ⊢
      cases hp : env.proxy idx with
      | ok p =>
          rw [hp] at hj
          dsimp only at hj ⊢
          simp only [List.length_cons, List.length_nil] at hj
          have hj0 : j = 0 := Nat.lt_one_iff.mp hj
          subst hj0
          simp
      | fail =>
          rw [hp] at hj
          dsimp only at hj ⊢
          cases j with
          | zero => simp
          | succ j' =>
              simp only [List.getElem?_cons_succ]
              exact ih j' (by simpa using hj)

theorem tryProxyList_length_le (env : BazaarEnv) (l : List ℕ) :
    (tryProxyList env l).2.length ≤ l.length := by
  induction l with
  | nil => simp [tryProxyList]
  | cons idx rest ih =>
      unfold tryProxyList
      cases hp : env.proxy idx with
      | ok p => simp
      | fail => simpa using ih

theorem tryProxyList_dropLast_fail (env : BazaarEnv) (l : List ℕ) :
    ∀ i ∈ (tryProxyList env l).2.dropLast, env.proxy i = .fail := by
  induction l with
  | nil => simp [tryProxyList]
  | cons idx rest ih =>
      unfold tryProxyList
      cases hp : env.proxy idx with
      | ok p => simp
      | fail =>
          dsimp only
          intro i hi
          cases hr : (tryProxyList env rest).2 with
          | nil =>
              rw [hr] at hi
              simp at hi
          | cons b bs =>
              rw [hr] at hi
              rw [List.dropLast_cons₂] at hi
              rcases List.mem_cons.mp hi with rfl | hi'
              · exact hp
              · apply ih
                rw [hr]
                exact hi'

theorem tryProxyList_success (env : BazaarEnv) (l : List ℕ) (p : Products) (idx : ℕ) :
    (tryProxyList env l).1 = some (p, idx) →
      env.proxy idx = .ok p ∧ (tryProxyList env l).2.getLast? = some idx := by
  induction l with
  | nil => simp [tryProxyList]
  | cons i0 rest ih =>
      unfold tryProxyList
      cases hp : env.proxy i0 with
      | ok q =>
          dsimp only
          intro h
          cases h
          exact ⟨hp, rfl⟩
      | fail =>
          dsimp only
          intro h
          obtain ⟨hok, hlast⟩ := ih h
          refine ⟨hok, ?_⟩
          cases hr : (tryProxyList env rest).2 with
          | nil =>
              rw [hr] at hlast
              cases hlast
          | cons b bs =>
              rw [hr] at hlast
              rw [List.getLast?_cons_cons]
              exact hlast

theorem tryProxyList_none (env : BazaarEnv) (l : List ℕ) :
    (tryProxyList env l).1 = none →
      (∀ i ∈ l, env.proxy i = .fail) ∧ (tryProxyList env l).2 = l := by
  induction l with
  | nil => simp [tryProxyList]
  | cons i0 rest ih =>
      unfold tryProxyList
      cases hp : env.proxy i0 with
      | ok q =>
          dsimp only
          intro h
          cases h
      | fail =>
          dsimp only
          intro h
          obtain ⟨hall, hatt⟩ := ih h
          refine ⟨?_, by rw [hatt]⟩
          intro i hi
          rcases List.mem_cons.mp hi with rfl | hi'
          · exact hp
          · exact hall i hi'

theorem tryProxyList_all_fail (env : BazaarEnv) (l : List ℕ)
    (h : ∀ i ∈ l, env.proxy i = .fail) : tryProxyList env l = (none, l) := by
  induction l with
  | nil => rfl
  | cons i0 rest ih =>
      unfold tryProxyList
      rw [h i0 (by simp)]
      dsimp only
      rw [ih (fun i hi => h i (by simp [hi]))]

/-- C3 counterexample: the claim's conjunction holds for neither
`fetchBazaarData` variant.  Variant 1 (which *does* remember the
last-successful proxy) throws after its three proxies fail with **zero**
direct requests, not one; variant 2 (which *does* fall back to a direct
request) has no memory: after a cold fetch in which proxy 0 failed and
proxy 1 succeeded, the next cold fetch attempts proxy 0 first again instead
of the remembered proxy 1. -/
theorem c3_proxy_chain_counterexample :
    fetchBazaarData1 bazaarInit1 envAllFail 100000 =
      ⟨none, bazaarInit1, [0, 1, 2], 0⟩ ∧
    (0 : ℕ) ≠ 1 ∧
    (fetchBazaarData2 bazaarInit2 envSecondProxyOk 0).attempts = [0, 1] ∧
    (fetchBazaarData2 ((fetchBazaarData2 bazaarInit2 envSecondProxyOk 0).state)
      envSecondProxyOk 400000).attempts = [0, 1] ∧
    ([0, 1] : List ℕ).headI = 0 ∧ (0 : ℕ) ≠ 1 := by
  refine ⟨by decide, by decide, by decide, by decide, rfl, by decide⟩

/-- C3 (amended): on a cold fetch both variants attempt proxies strictly in
their order (variant 1 rotated to start at the remembered
`currentProxyIndex`, variant 2 always the fixed order `0,1,2,3`), advancing
exactly past the failing proxies; variant 1 remembers a successful proxy's
index for the next cold fetch but performs **no** direct request and throws
as soon as all proxies fail, leaving its state untouched; variant 2
performs exactly **one** direct request after all four proxies fail and, if
that also fails, throws with its state untouched (in particular no zero is
ever written to either cache on a failed fetch). -/
theorem c3_proxy_chain_amended (s : BazaarState1) (s2 : BazaarState2)
    (env : BazaarEnv) (now : ℕ)
    (hcold1 : ¬ (s.cache.isSome = true ∧ now - s.lastFetch < bazaarCacheExpiry1))
    (hmem2 : ¬ bazaarMemFresh2 s2 now) (hst2 : ¬ bazaarStorageFresh2 s2 now) :
    ((fetchBazaarData1 s env now).attempts.length ≤ 3 ∧
     (∀ j, j < (fetchBazaarData1 s env now).attempts.length →
        (fetchBazaarData1 s env now).attempts[j]? =
          some ((s.currentProxyIndex + j) % 3)) ∧
     (∀ i ∈ (fetchBazaarData1 s env now).attempts.dropLast, env.proxy i = .fail) ∧
     (∀ p, (fetchBazaarData1 s env now).outcome = some p →
        ∃ idx, (fetchBazaarData1 s env now).attempts.getLast? = some idx ∧
          env.proxy idx = .ok p ∧
          (fetchBazaarData1 s env now).state.currentProxyIndex = idx ∧
          (fetchBazaarData1 s env now).state.cache = some p) ∧
     (fetchBazaarData1 s env now).directAttempts = 0 ∧
     ((fetchBazaarData1 s env now).outcome = none →
        (fetchBazaarData1 s env now).state = s ∧
        (∀ i ∈ proxyOrder1 s.currentProxyIndex, env.proxy i = .fail) ∧
        (fetchBazaarData1 s env now).attempts.length = 3)) ∧
    ((∀ j, j < (fetchBazaarData2 s2 env now).attempts.length →
        (fetchBazaarData2 s2 env now).attempts[j]? = some j) ∧
     ((∀ i, i < 4 → env.proxy i = .fail) →
        (fetchBazaarData2 s2 env now).attempts = [0, 1, 2, 3] ∧
        (fetchBazaarData2 s2 env now).directAttempts = 1) ∧
     ((∀ i, i < 4 → env.proxy i = .fail) → env.direct = .fail →
        (fetchBazaarData2 s2 env now).outcome = none ∧
        (fetchBazaarData2 s2 env now).state = s2)) := by
  have hfetch1 : fetchBazaarData1 s env now =
      match tryProxyList env (proxyOrder1 s.currentProxyIndex) with
      | (some (p, idx), tr) => ⟨some p, ⟨some p, now, idx⟩, tr, 0⟩
      | (none, tr) => ⟨none, s, tr, 0⟩ := by
    unfold fetchBazaarData1
    rw [if_neg hcold1]
  have hlen1 : (proxyOrder1 s.currentProxyIndex).length = 3 := by
    simp [proxyOrder1, proxyCount1]
  have hnet2 : fetchBazaarData2 s2 env now = fetchBazaarNetwork2 s2 env now :=
    fetchBazaarData2_network s2 env now hmem2 hst2
  constructor
  · rcases htl : tryProxyList env (proxyOrder1 s.currentProxyIndex) with ⟨o, tr⟩
    have htr : tr = (tryProxyList env (proxyOrder1 s.currentProxyIndex)).2 := by
      rw [htl]
    refine ⟨?_, ?_, ?_, ?_, ?_, ?_⟩
    · rw [hfetch1, htl]
      cases o with
      | some pi =>
          obtain ⟨p, idx⟩ := pi
          dsimp only
          rw [htr, ← hlen1]
          exact tryProxyList_length_le env _
      | none =>
          dsimp only
          rw [htr, ← hlen1]
          exact tryProxyList_length_le env _
    · intro j hj
      rw [hfetch1, htl] at hj ⊢
      have hgoal : tr[j]? = some ((s.currentProxyIndex + j) % 3) := by
        have hjlt : j < tr.length := by
          cases o with
          | some pi =>
              obtain ⟨p, idx⟩ := pi
              simpa using hj
          | none => simpa using hj
        rw [htr] at hjlt ⊢
        rw [tryProxyList_get env _ j hjlt]
        have hj3 : j < 3 := by
          rw [← hlen1]
          exact lt_of_lt_of_le hjlt (tryProxyList_length_le env _)
        simp [proxyOrder1, proxyCount1, List.getElem?_map, List.getElem?_range, hj3]
      cases o with
      | some pi =>
          obtain ⟨p, idx⟩ := pi
          exact hgoal
      | none => exact hgoal
    · intro i hi
      rw [hfetch1, htl] at hi
      have : i ∈ tr.dropLast := by
        cases o with
        | some pi =>
            obtain ⟨p, idx⟩ := pi
            simpa using hi
        | none => simpa using hi
      apply tryProxyList_dropLast_fail env (proxyOrder1 s.currentProxyIndex)
      rw [← htr]
      exact this
    · intro p hp
      rw [hfetch1, htl] at hp ⊢
      cases o with
      | some pi =>
          obtain ⟨q, idx⟩ := pi
          dsimp only at hp ⊢
          cases hp
          obtain ⟨hok, hlast⟩ := tryProxyList_success env
            (proxyOrder1 s.currentProxyIndex) p idx (by rw [htl])
          refine ⟨idx, ?_, hok, rfl, rfl⟩
          rw [htr]
          exact hlast
      | none =>
          dsimp only at hp
          cases hp
    · rw [hfetch1, htl]
      cases o with
      | some pi =>
          obtain ⟨p, idx⟩ := pi
          rfl
      | none => rfl
    · intro hnone
      rw [hfetch1, htl] at hnone ⊢
      cases o with
      | some pi =>
          obtain ⟨p, idx⟩ := pi
          dsimp only at hnone
          cases hnone
      | none =>
          dsimp only
          obtain ⟨hall, hatt⟩ := tryProxyList_none env
            (proxyOrder1 s.currentProxyIndex) (by rw [htl])
          refine ⟨rfl, hall, ?_⟩
          rw [htr, hatt, hlen1]
  · rcases htl : tryProxyList env (List.range proxyCount2) with ⟨o, tr⟩
    have htr : tr = (tryProxyList env (List.range proxyCount2)).2 := by
      rw [htl]
    have hnet : fetchBazaarNetwork2 s2 env now =
        match tryProxyList env (List.range proxyCount2) with
        | (some (p, _), tr) => ⟨some p, ⟨some p, now, some (p, now)⟩, tr, 0⟩
        | (none, tr) =>
            match env.direct with
            | .ok p => ⟨some p, ⟨some p, now, some (p, now)⟩, tr, 1⟩
            | .fail => ⟨none, s2, tr, 1⟩ := rfl
    refine ⟨?_, ?_, ?_⟩
    · intro j hj
      rw [hnet2, hnet, htl] at hj ⊢
      have hgoal : tr[j]? = some j := by
        have hjlt : j < tr.length := by
          cases o with
          | some pi =>
              obtain ⟨p, idx⟩ := pi
              simpa using hj
          | none =>
              cases hd : env.direct with
              | ok p =>
                  rw [hd] at hj
                  simpa using hj
              | fail =>
                  rw [hd] at hj
                  simpa using hj
        rw [htr] at hjlt ⊢
        rw [tryProxyList_get env _ j hjlt]
        have hj4 : j < proxyCount2 := by
          calc j < (tryProxyList env (List.range proxyCount2)).2.length := hjlt
          _ ≤ (List.range proxyCount2).length := tryProxyList_length_le env _
          _ = proxyCount2 := by simp
        simp [List.getElem?_range, hj4]
      cases o with
      | some pi =>
          obtain ⟨p, idx⟩ := pi
          exact hgoal
      | none =>
          cases hd : env.direct with
          | ok p => simpa using hgoal
          | fail => simpa using hgoal
    · intro hfail
      have hallfail : ∀ i ∈ List.range proxyCount2, env.proxy i = .fail := by
        intro i hi
        exact hfail i (by simpa [proxyCount2] using hi)
      have hav := tryProxyList_all_fail env (List.range proxyCount2) hallfail
      rw [htl] at hav
      injection hav with ho htreq
      subst ho
      rw [hnet2, hnet, htl]
      cases hd : env.direct with
      | ok p => exact ⟨by rw [htreq]; rfl, rfl⟩
      | fail => exact ⟨by rw [htreq]; rfl, rfl⟩
    · intro hfail hdirect
      have hallfail : ∀ i ∈ List.range proxyCount2, env.proxy i = .fail := by
        intro i hi
        exact hfail i (by simpa [proxyCount2] using hi)
      have hav := tryProxyList_all_fail env (List.range proxyCount2) hallfail
      rw [htl] at hav
      injection hav with ho htreq
      subst ho
      rw [hnet2, hnet, htl]
      dsimp only
      rw [hdirect]
      exact ⟨rfl, rfl⟩

/-- Witness for C3 (amended): with proxies 0 and 1 failing and proxy 2
succeeding, a cold variant-1 fetch starting at index 0 attempts `[0, 1, 2]`,
succeeds, and remembers index 2; with every proxy failing and the direct
request failing too, a cold variant-2 fetch attempts `[0, 1, 2, 3]`, makes
exactly one direct attempt, throws, and leaves the state untouched. -/
theorem c3_proxy_chain_amended_witness :
    fetchBazaarData1 bazaarInit1 ⟨fun i => if i = 2 then .ok [] else .fail, .fail⟩
      100000 = ⟨some [], ⟨some [], 100000, 2⟩, [0, 1, 2], 0⟩ ∧
    (fetchBazaarData2 bazaarInit2 envAllFail 100000).attempts = [0, 1, 2, 3] ∧
    (fetchBazaarData2 bazaarInit2 envAllFail 100000).directAttempts = 1 ∧
    (fetchBazaarData2 bazaarInit2 envAllFail 100000).outcome = none ∧
    (fetchBazaarData2 bazaarInit2 envAllFail 100000).state = bazaarInit2 := by
  have h := c3_proxy_chain_amended bazaarInit1 bazaarInit2
    ⟨fun i => if i = 2 then .ok [] else .fail, .fail⟩ 100000
    (by simp [bazaarInit1]) (by rintro ⟨hc, -⟩; simp [bazaarInit2] at hc)
    (by rintro ⟨p, ts, hc, -⟩; simp [bazaarInit2] at hc)
  have h2 := c3_proxy_chain_amended bazaarInit1 bazaarInit2 envAllFail 100000
    (by simp [bazaarInit1]) (by rintro ⟨hc, -⟩; simp [bazaarInit2] at hc)
    (by rintro ⟨p, ts, hc, -⟩; simp [bazaarInit2] at hc)
  refine ⟨by decide, ?_, ?_, ?_, ?_⟩
  · exact (h2.2.2.1 (by decide)).1
  · exact (h2.2.2.1 (by decide)).2
  · exact (h2.2.2.2 (by decide) rfl).1
  · exact (h2.2.2.2 (by decide) rfl).2
